import Mathlib

/-!
# Tic-tac-toe controller (`game.c`, `main.c`): shallow embedding

The C functions of `src/game.c` and the polling loop of `src/main.c` are
translated to Lean functions; the member functions of `src/game.cpp` that mirror
them are translated a second time, in namespace `Cpp`.

* `char` and `uint` values are natural numbers; the one place where unsigned
  32-bit arithmetic can wrap (`moves + 1`) carries an explicit `% 2 ^ 32`.
* The board `char board[ROWS][COLS]` is a function `Fin ROWS → Fin COLS → Nat`.
  An access `board[row][col]` whose indices are computed from a `uint`
  is bounds-checked: the embedding returns `none` for an access outside the
  array (undefined behaviour in C).
* Hardware calls (`sleep_us`, `gpio_get`, `gpio_put`,
  `multicore_fifo_push_blocking`) are recorded, in program order, in a list of
  `Effect`s; the level returned by each `gpio_get` is an argument.
* `printf` output is not modelled.
* The loop of `flash_winner_led`, which runs on the second core, is embedded one
  iteration at a time; what the FIFO holds when it is polled is an argument.
-/

namespace TicTacToe

/-! ## Constants of `game.h` -/

/-- Number of rows: `#define ROWS 3`. -/
abbrev ROWS : Nat := 3
/-- Number of columns: `#define COLS 3`. -/
abbrev COLS : Nat := 3
/-- Empty cell: `#define EMPTY ' '`. -/
abbrev EMPTY : Nat := 32
/-- Player 1 symbol: `#define X 'X'`. -/
abbrev X : Nat := 88
/-- Player 2 symbol: `#define O 'O'`. -/
abbrev O : Nat := 79
/-- Debounce delay in microseconds: `#define DEBOUNCE_DELAY 200000`. -/
abbrev DEBOUNCE_DELAY : Nat := 200000
/-- Blink delay in milliseconds: `#define BLINK_LED_DELAY 500`. -/
abbrev BLINK_LED_DELAY : Nat := 500
/-- Logic level: `#define HIGH 1`. -/
abbrev HIGH : Nat := 1
/-- Logic level: `#define LOW 0`. -/
abbrev LOW : Nat := 0
/-- Pin of the on-board LED: `#define ONBOARD_LED 25`. -/
abbrev ONBOARD_LED : Nat := 25
/-- Pin of LED 1: `#define LED1 15`. -/
abbrev LED1 : Nat := 15
/-- Pin of LED 2: `#define LED2 14`. -/
abbrev LED2 : Nat := 14
/-- Pin of button 1 (cursor): `#define BTN1 16`. -/
abbrev BTN1 : Nat := 16
/-- Pin of button 2 (select): `#define BTN2 18`. -/
abbrev BTN2 : Nat := 18
/-- Pin of button 3 (reset): `#define BTN3 19`. -/
abbrev BTN3 : Nat := 19

/-! ## Data model -/

/-- The array `char board[ROWS][COLS]`. -/
abbrev Board : Type := Fin ROWS → Fin COLS → Nat

/-- The assignment `board[i][j] = v` for in-bounds indices. -/
def Board.set (board : Board) (i : Fin ROWS) (j : Fin COLS) (v : Nat) : Board :=
  fun r c => if r = i ∧ c = j then v else board r c

/-- Hardware calls made by the program, in the order they are made. -/
inductive Effect where
  /-- The call `sleep_us(n)`. -/
  | sleep_us (n : Nat)
  /-- The call `sleep_ms(n)`. -/
  | sleep_ms (n : Nat)
  /-- The call `gpio_get(pin)` that returned `level`. -/
  | gpio_get (pin : Nat) (level : Bool)
  /-- The call `gpio_put(pin, level)`. -/
  | gpio_put (pin : Nat) (level : Nat)
  /-- The call `multicore_fifo_push_blocking(v)`. -/
  | fifo_push (v : Nat)
  deriving DecidableEq, Repr

/-- The values pushed on the inter-core FIFO (the winner signal) by a run. -/
def pushes : List Effect → List Nat
  | [] => []
  | Effect.fifo_push v :: es => v :: pushes es
  | _ :: es => pushes es

/-- The variables of `main` that the game functions receive by pointer:
`board`, `moves`, `current_player`, `is_game_over`. -/
structure Game where
  /-- The array `char board[ROWS][COLS]`. -/
  board : Board
  /-- The cursor `uint moves`. -/
  moves : Nat
  /-- The mover `char current_player`. -/
  current_player : Nat
  /-- The flag `bool is_game_over`. -/
  is_game_over : Bool

/-- The struct `BtnState` of `game.h`. -/
structure BtnState where
  /-- Pin number of the button. -/
  but_pin : Nat
  /-- Level seen one sample earlier. -/
  prev_state : Bool
  /-- Level seen at the latest sample. -/
  curr_state : Bool
  deriving DecidableEq, Repr

/-! ## Loops with a constant bound -/

/-- The loop `for (int i = 0; i < n; i++) if (c i) return true;` followed by
a fall-through that yields `false`. -/
def forAny : (n : Nat) → (Fin n → Bool) → Bool
  | 0, _ => false
  | n + 1, c => if c 0 then true else forAny n (fun i => c i.succ)

/-- The loop `for (int i = 0; i < n; i++) s = body i s;`. -/
def forLoop {σ : Type} : (n : Nat) → (Fin n → σ → σ) → σ → σ
  | 0, _, s => s
  | n + 1, body, s => forLoop n (fun i => body i.succ) (body 0 s)

/-! ## Button debounce functions -/

/-- The function `has_changed` of game.c: `prev_state == LOW && curr_state == HIGH`. -/
def has_changed (prev_state curr_state : Bool) : Bool :=
  prev_state.toNat == LOW && curr_state.toNat == HIGH

/-- The function `is_stable` of game.c: sleeps `DEBOUNCE_DELAY` microseconds,
reads the pin (the read returns `level`) and compares. -/
def is_stable (button : Nat) (prev_state : Bool) (level : Bool) : Bool × List Effect :=
  let current_state : Nat := level.toNat
  let io := [Effect.sleep_us DEBOUNCE_DELAY, Effect.gpio_get button level]
  if prev_state.toNat == HIGH && current_state == HIGH then (true, io) else (false, io)

/-- The function `debounce` of game.c; `level` is what the pin read inside
`is_stable` returns, should that read happen. -/
def debounce (btn : BtnState) (level : Bool) : Bool × List Effect :=
  if has_changed btn.prev_state btn.curr_state then
    let r := is_stable btn.but_pin btn.curr_state level
    if r.1 then (true, r.2) else (false, r.2)
  else (false, [])

/-- The function `update_btn_state` of game.c; `level` is what `gpio_get` returns. -/
def update_btn_state (btn : BtnState) (level : Bool) : BtnState × List Effect :=
  let btn1 : BtnState :=
    if btn.curr_state.toNat == 0 then { btn with prev_state := false }
    else if btn.curr_state.toNat == 1 then { btn with prev_state := true }
    else btn
  ({ btn1 with curr_state := level }, [Effect.gpio_get btn.but_pin level])

/-! ## Board functions -/

/-- The function `reset_board` of game.c. -/
def reset_board (g : Game) : Game × List Effect :=
  let board := forLoop ROWS (fun i b => forLoop COLS (fun j b => Board.set b i j EMPTY) b) g.board
  ({ board := board, moves := 0, current_player := X, is_game_over := false },
   [Effect.fifo_push EMPTY])

/-- The function `get_curr_row` of game.c. -/
def get_curr_row (moves : Nat) : Nat := moves / ROWS

/-- The function `get_next_row` of game.c; `moves + 1` is unsigned 32-bit. -/
def get_next_row (moves : Nat) : Nat := ((moves + 1) % 2 ^ 32) / ROWS

/-- The function `get_next_col` of game.c; `moves + 1` is unsigned 32-bit. -/
def get_next_col (moves : Nat) : Nat := ((moves + 1) % 2 ^ 32) % COLS

/-- The function `get_curr_col` of game.c. -/
def get_curr_col (moves : Nat) : Nat := moves % COLS

/-- The function `is_valid_pos` of game.c. -/
def is_valid_pos (row col : Nat) : Bool :=
  decide (row ≥ 0) && decide (row < ROWS) && decide (col ≥ 0) && decide (col < COLS)

/-- The function `update_position` of game.c. -/
def update_position (moves : Nat) : Nat :=
  let next_row := get_next_row moves
  let next_col := get_next_col moves
  if is_valid_pos next_row next_col then (moves + 1) % 2 ^ 32 else 0

/-- The function `is_empty_pos` of game.c: reads `board[row][col]`. -/
def is_empty_pos (row col : Nat) (board : Board) : Option Bool :=
  if h : row < ROWS ∧ col < COLS then some (board ⟨row, h.1⟩ ⟨col, h.2⟩ == EMPTY) else none

/-- The function `update_board` of game.c: writes `board[row][col]`. -/
def update_board (current_player : Nat) (moves : Nat) (board : Board) : Option Board :=
  let row := get_curr_row moves
  let col := get_curr_col moves
  if h : row < ROWS ∧ col < COLS then some (Board.set board ⟨row, h.1⟩ ⟨col, h.2⟩ current_player)
  else none

/-! ## LED and button handlers -/

/-- The function `update_player_led` of game.c. -/
def update_player_led (current_player : Nat) : List Effect :=
  if current_player == X then [Effect.gpio_put LED1 HIGH, Effect.gpio_put LED2 LOW]
  else if current_player == O then [Effect.gpio_put LED1 LOW, Effect.gpio_put LED2 HIGH]
  else [Effect.gpio_put LED1 LOW, Effect.gpio_put LED2 LOW]

/-- The function `handle_btn1` of game.c. -/
def handle_btn1 (moves : Nat) : Nat := update_position moves

/-! ## Game status functions -/

/-- The function `get_new_player` of game.c. -/
def get_new_player (current_player : Nat) : Nat :=
  if current_player == X then O else X

/-- The function `is_win` of game.c. -/
def is_win (player : Nat) (board : Board) : Bool :=
  if forAny ROWS (fun i => board i 0 == player && board i 1 == player && board i 2 == player) then
    true
  else if forAny COLS (fun j => board 0 j == player && board 1 j == player && board 2 j == player) then
    true
  else if board 0 0 == player && board 1 1 == player && board 2 2 == player then
    true
  else if board 0 2 == player && board 1 1 == player && board 2 0 == player then
    true
  else
    false

/-- The function `is_tie` of game.c. -/
def is_tie (board : Board) : Bool :=
  if forAny ROWS (fun i => forAny COLS (fun j => board i j == EMPTY)) then false else true

/-- The function `handle_btn2` of game.c. -/
def handle_btn2 (g : Game) : Option (Game × List Effect) :=
  let row := get_curr_row g.moves
  let col := get_curr_col g.moves
  if !is_valid_pos row col then some (g, [])
  else
    match is_empty_pos row col g.board with
    | none => none
    | some empty =>
      if !empty then some (g, [])
      else
        match update_board g.current_player g.moves g.board with
        | none => none
        | some board =>
          let g1 : Game := { g with board := board }
          if is_win g1.current_player g1.board then
            some ({ g1 with is_game_over := true }, [Effect.fifo_push g1.current_player])
          else if is_tie g1.board then
            some (reset_board g1)
          else
            let g2 : Game := { g1 with moves := 0 }
            some ({ g2 with current_player := get_new_player g2.current_player }, [])

/-! ## The polling loop of `main.c` -/

/-- The variables of `main` that live across iterations of its `while (true)` loop. -/
structure Main where
  /-- The game variables `board`, `moves`, `current_player`, `is_game_over`. -/
  game : Game
  /-- State of the cursor button. -/
  btn1 : BtnState
  /-- State of the select button. -/
  btn2 : BtnState
  /-- State of the reset button. -/
  btn3 : BtnState

/-- Levels returned by the `gpio_get` calls one loop iteration can make: for each
button the sample taken by `update_btn_state` and the sample taken after the
settle delay inside `is_stable`. -/
structure Pins where
  /-- Button 1, sample of `update_btn_state`. -/
  s1 : Bool
  /-- Button 1, sample of `is_stable`. -/
  r1 : Bool
  /-- Button 2, sample of `update_btn_state`. -/
  s2 : Bool
  /-- Button 2, sample of `is_stable`. -/
  r2 : Bool
  /-- Button 3, sample of `update_btn_state`. -/
  s3 : Bool
  /-- Button 3, sample of `is_stable`. -/
  r3 : Bool

/-- The state of `main` when it enters the `while (true)` loop: the initialisers
of lines 8 to 47 followed by the call to `reset_board` of line 55. -/
def main_init : Main × List Effect :=
  let board : Board := fun _ _ => EMPTY
  let g : Game := { board := board, moves := 0, current_player := X, is_game_over := false }
  let r := reset_board g
  ({ game := r.1,
     btn1 := { but_pin := BTN1, prev_state := false, curr_state := false },
     btn2 := { but_pin := BTN2, prev_state := false, curr_state := false },
     btn3 := { but_pin := BTN3, prev_state := false, curr_state := false } }, r.2)

/-- The part of the loop body guarded by `if (!is_game_over)`, lines 60 to 76 of main.c. -/
def main_loop_play (m : Main) (p : Pins) : Option (Main × List Effect) :=
  let e0 := update_player_led m.game.current_player
  let u1 := update_btn_state m.btn1 p.s1
  let d1 := debounce u1.1 p.r1
  let g1 : Game := if d1.1 then { m.game with moves := handle_btn1 m.game.moves } else m.game
  let u2 := update_btn_state m.btn2 p.s2
  let d2 := debounce u2.1 p.r2
  let m2 : Main := { m with btn1 := u1.1, btn2 := u2.1 }
  if d2.1 then
    match handle_btn2 g1 with
    | none => none
    | some r => some ({ m2 with game := r.1 }, e0 ++ u1.2 ++ d1.2 ++ u2.2 ++ d2.2 ++ r.2)
  else some ({ m2 with game := g1 }, e0 ++ u1.2 ++ d1.2 ++ u2.2 ++ d2.2)

/-- One iteration of the `while (true)` loop of `main`, lines 57 to 84 of main.c. -/
def main_loop_iter (m : Main) (p : Pins) : Option (Main × List Effect) :=
  match (if !m.game.is_game_over then main_loop_play m p else some (m, [])) with
  | none => none
  | some (m1, e1) =>
    let u3 := update_btn_state m1.btn3 p.s3
    let d3 := debounce u3.1 p.r3
    let m3 : Main := { m1 with btn3 := u3.1 }
    if d3.1 then
      let r := reset_board m3.game
      some ({ m3 with game := r.1 }, e1 ++ u3.2 ++ d3.2 ++ r.2)
    else some (m3, e1 ++ u3.2 ++ d3.2)

/-- The `while (true)` loop of `main` run for as many iterations as `ps` lists pin
levels, from the variables `s.1`, the hardware calls `s.2` having been made before. -/
def main_loop : List Pins → Main × List Effect → Option (Main × List Effect)
  | [], s => some s
  | p :: ps, s =>
    match main_loop_iter s.1 p with
    | none => none
    | some r => main_loop ps (r.1, s.2 ++ r.2)

/-- The function `main` up to the end of the loop iterations listed in `ps`. -/
def main_run (ps : List Pins) : Option (Main × List Effect) := main_loop ps main_init

/-- Well-formed game variables: every cell holds EMPTY, X or O, the mover is X or O
and the cursor is on the board. -/
def Game.valid (g : Game) : Prop :=
  (∀ r c, g.board r c = EMPTY ∨ g.board r c = X ∨ g.board r c = O) ∧
    (g.current_player = X ∨ g.current_player = O) ∧ g.moves < ROWS * COLS

/-! ## Button events -/

/-- A press that `debounce` classified as valid: button 1 (cursor), button 2
(select) or button 3 (reset). -/
inductive Event where
  /-- A valid press of button 1. -/
  | cursor
  /-- A valid press of button 2. -/
  | select
  /-- A valid press of button 3. -/
  | reset
  deriving DecidableEq, Repr

/-- What the loop body of `main` does with one valid press: buttons 1 and 2 are
served by `handle_btn1` and `handle_btn2` inside `if (!is_game_over)`, button 3 is
served by `reset_board` whatever the flag. -/
def handle_event (g : Game) : Event → Option (Game × List Effect)
  | Event.cursor =>
    if !g.is_game_over then some ({ g with moves := handle_btn1 g.moves }, []) else some (g, [])
  | Event.select => if !g.is_game_over then handle_btn2 g else some (g, [])
  | Event.reset => some (reset_board g)

/-- The presses of `es` served one after the other, from the game variables `g`. -/
def run_events : List Event → Game → Option (Game × List Effect)
  | [], g => some (g, [])
  | e :: es, g =>
    match handle_event g e with
    | none => none
    | some r =>
      match run_events es r.1 with
      | none => none
      | some r1 => some (r1.1, r.2 ++ r1.2)

/-- The valid presses of one loop iteration, in the order the loop body serves them. -/
def iter_events (m : Main) (p : Pins) : List Event :=
  (if !m.game.is_game_over then
    (if (debounce (update_btn_state m.btn1 p.s1).1 p.r1).1 then [Event.cursor] else []) ++
    (if (debounce (update_btn_state m.btn2 p.s2).1 p.r2).1 then [Event.select] else [])
   else []) ++
  (if (debounce (update_btn_state m.btn3 p.s3).1 p.r3).1 then [Event.reset] else [])

/-- The end-to-end winning game: select; cursor three times, select; cursor, select;
cursor four times, select; cursor twice, select. -/
def scenario_win : List Event :=
  [Event.select,
   Event.cursor, Event.cursor, Event.cursor, Event.select,
   Event.cursor, Event.select,
   Event.cursor, Event.cursor, Event.cursor, Event.cursor, Event.select,
   Event.cursor, Event.cursor, Event.select]

/-! ## Counting marks -/

/-- Number of cells of the board that hold `v`. -/
def Board.count (board : Board) (v : Nat) : Nat :=
  (Finset.univ.filter (fun rc : Fin ROWS × Fin COLS => board rc.1 rc.2 = v)).card

/-- Invariant of the game variables: they are well formed; while the game is on
neither X nor O has a line; once it is over the mover has a line and the other
player has none; X has as many marks as O or one more, and while the game is on the
mover is X in the first case and O in the second. -/
def Game.inv (g : Game) : Prop :=
  Game.valid g ∧
    (g.is_game_over = false → is_win X g.board = false ∧ is_win O g.board = false) ∧
    (g.is_game_over = true →
      is_win g.current_player g.board = true ∧
        is_win (get_new_player g.current_player) g.board = false) ∧
    (Board.count g.board X = Board.count g.board O ∨
      Board.count g.board X = Board.count g.board O + 1) ∧
    (g.is_game_over = false →
      (g.current_player = X ↔ Board.count g.board X = Board.count g.board O) ∧
        (g.current_player = O ↔ Board.count g.board X = Board.count g.board O + 1))

/-! ## The indicator loop of core 1: `flash_winner_led` -/

/-- The local variables of `flash_winner_led`. -/
structure Flash where
  /-- The retained value `uint32_t winner`. -/
  winner : Nat
  /-- The pin chosen last, `uint led_pin`. -/
  led_pin : Nat
  deriving DecidableEq, Repr

/-- The initialisers of `flash_winner_led`: `winner = (uint32_t)EMPTY`,
`led_pin = ONBOARD_LED`. -/
def flash_start : Flash := { winner := EMPTY, led_pin := ONBOARD_LED }

/-- One iteration of the `while (true)` loop of `flash_winner_led`. The argument
`fifo` is `some v` when `multicore_fifo_rvalid()` is true and the pop returns `v`,
and `none` when `multicore_fifo_rvalid()` is false. The cast `(char)winner` keeps
the low byte, `winner % 256`. -/
def flash_winner_led_iter (s : Flash) (fifo : Option Nat) : Flash × List Effect :=
  let winner : Nat :=
    match fifo with
    | some v => v
    | none => s.winner
  let led_pin : Nat :=
    if winner % 256 == X then LED1
    else if winner % 256 == O then LED2
    else ONBOARD_LED
  ({ winner := winner, led_pin := led_pin },
   [Effect.gpio_put led_pin HIGH, Effect.sleep_ms BLINK_LED_DELAY,
    Effect.gpio_put led_pin LOW, Effect.sleep_ms BLINK_LED_DELAY])

/-! ## The C++ implementation: `game.cpp`

The member functions of class `Game` in `src/game.cpp`. The class constants of
`game.hpp` (`ROWS`, `COLS`, `EMPTY`, `X`, `O`) have the values of the macros of
`game.h`, so the constants above are used for both. Output through `cout` and
`printf` is not modelled. -/

namespace Cpp

/-- The member function `Game::get_curr_row` of game.cpp. -/
def get_curr_row (moves : Nat) : Nat := moves / ROWS

/-- The member function `Game::get_next_row` of game.cpp; `moves + 1` is unsigned 32-bit. -/
def get_next_row (moves : Nat) : Nat := ((moves + 1) % 2 ^ 32) / ROWS

/-- The member function `Game::get_next_col` of game.cpp; `moves + 1` is unsigned 32-bit. -/
def get_next_col (moves : Nat) : Nat := ((moves + 1) % 2 ^ 32) % COLS

/-- The member function `Game::get_curr_col` of game.cpp. -/
def get_curr_col (moves : Nat) : Nat := moves % COLS

/-- The member function `Game::is_valid_pos` of game.cpp: `row < ROWS && col < COLS`. -/
def is_valid_pos (row col : Nat) : Bool :=
  decide (row < ROWS) && decide (col < COLS)

/-- The member function `Game::update_position` of game.cpp. -/
def update_position (moves : Nat) : Nat :=
  let next_row := get_next_row moves
  let next_col := get_next_col moves
  if is_valid_pos next_row next_col then (moves + 1) % 2 ^ 32 else 0

/-- The member function `Game::is_empty_pos` of game.cpp: reads `board[row][col]`. -/
def is_empty_pos (row col : Nat) (board : Board) : Option Bool :=
  if h : row < ROWS ∧ col < COLS then some (board ⟨row, h.1⟩ ⟨col, h.2⟩ == EMPTY) else none

/-- The member function `Game::update_board` of game.cpp: writes `board[row][col]`. -/
def update_board (current_player : Nat) (moves : Nat) (board : Board) : Option Board :=
  let row := get_curr_row moves
  let col := get_curr_col moves
  if h : row < ROWS ∧ col < COLS then some (Board.set board ⟨row, h.1⟩ ⟨col, h.2⟩ current_player)
  else none

/-- The member function `Game::reset_board` of game.cpp. -/
def reset_board (g : Game) : Game × List Effect :=
  let board := forLoop ROWS (fun i b => forLoop COLS (fun j b => Board.set b i j EMPTY) b) g.board
  ({ board := board, moves := 0, current_player := X, is_game_over := false },
   [Effect.fifo_push EMPTY])

/-- The member function `Game::get_new_player` of game.cpp. -/
def get_new_player (current_player : Nat) : Nat :=
  if current_player == X then O else X

/-- The member function `Game::is_win` of game.cpp. -/
def is_win (player : Nat) (board : Board) : Bool :=
  if forAny ROWS (fun i => board i 0 == player && board i 1 == player && board i 2 == player) then
    true
  else if forAny COLS (fun j => board 0 j == player && board 1 j == player && board 2 j == player) then
    true
  else if board 0 0 == player && board 1 1 == player && board 2 2 == player then
    true
  else if board 0 2 == player && board 1 1 == player && board 2 0 == player then
    true
  else
    false

/-- The member function `Game::is_tie` of game.cpp. -/
def is_tie (board : Board) : Bool :=
  if forAny ROWS (fun i => forAny COLS (fun j => board i j == EMPTY)) then false else true

/-- The member function `Game::handle_btn2` of game.cpp. -/
def handle_btn2 (g : Game) : Option (Game × List Effect) :=
  let row := get_curr_row g.moves
  let col := get_curr_col g.moves
  if !is_valid_pos row col then some (g, [])
  else
    match is_empty_pos row col g.board with
    | none => none
    | some empty =>
      if !empty then some (g, [])
      else
        match update_board g.current_player g.moves g.board with
        | none => none
        | some board =>
          let g1 : Game := { g with board := board }
          if is_win g1.current_player g1.board then
            some ({ g1 with is_game_over := true }, [Effect.fifo_push g1.current_player])
          else if is_tie g1.board then
            some (reset_board g1)
          else
            let g2 : Game := { g1 with moves := 0 }
            some ({ g2 with current_player := get_new_player g2.current_player }, [])

end Cpp

/-! ## Counting placements -/

/-- Whether a select press served at `g` writes a mark: the game is on (the test of
`main`), the cursor is on the board and its cell is EMPTY (the two tests of
`handle_btn2` before `update_board`). -/
def accepts (g : Game) : Bool :=
  !g.is_game_over && is_valid_pos (get_curr_row g.moves) (get_curr_col g.moves) &&
    (is_empty_pos (get_curr_row g.moves) (get_curr_col g.moves) g.board == some true)

/-- Number of select presses that write a mark when the presses of `es` are served
one after the other from `g`. -/
def placements : List Event → Game → Nat
  | [], _ => 0
  | e :: es, g =>
    match handle_event g e with
    | none => 0
    | some r => (if e = Event.select ∧ accepts g = true then 1 else 0) + placements es r.1

/-! ## Concrete states used to instantiate the theorems -/

/-- X holds (0,0) and (0,1), O holds (1,0) and (1,1); X to move, cursor on (0,2). -/
def state_row_win : Game :=
  { board := ![![X, X, EMPTY], ![O, O, EMPTY], ![EMPTY, EMPTY, EMPTY]],
    moves := 2, current_player := X, is_game_over := false }

/-- Only (2,2) is empty and X on (2,2) completes the main diagonal; cursor on (2,2). -/
def state_last_cell_win : Game :=
  { board := ![![X, O, X], ![O, X, O], ![O, X, EMPTY]],
    moves := 8, current_player := X, is_game_over := false }

/-- Only (2,2) is empty and X on (2,2) completes no line; cursor on (2,2). -/
def state_last_cell_tie : Game :=
  { board := ![![X, O, X], ![X, O, O], ![O, X, EMPTY]],
    moves := 8, current_player := X, is_game_over := false }

/-- The empty board, X to move, cursor on (0,0). -/
def state_start : Game :=
  { board := fun _ _ => EMPTY, moves := 0, current_player := X, is_game_over := false }

/-- X holds (0,0), O to move, cursor on the occupied cell (0,0). -/
def state_occupied : Game :=
  { board := ![![X, EMPTY, EMPTY], ![EMPTY, EMPTY, EMPTY], ![EMPTY, EMPTY, EMPTY]],
    moves := 0, current_player := O, is_game_over := false }

/-- A state whose cursor is past the last cell. -/
def state_cursor_out : Game :=
  { board := fun _ _ => EMPTY, moves := 9, current_player := X, is_game_over := false }

/-- The variables of `main` after X won with the top row; no button was high at the last sample. -/
def main_after_win : Main :=
  { game := { board := ![![X, X, X], ![O, O, EMPTY], ![EMPTY, EMPTY, EMPTY]],
              moves := 2, current_player := X, is_game_over := true },
    btn1 := { but_pin := BTN1, prev_state := false, curr_state := false },
    btn2 := { but_pin := BTN2, prev_state := false, curr_state := false },
    btn3 := { but_pin := BTN3, prev_state := false, curr_state := false } }

/-- Cursor and select buttons read high at both samples, the reset button reads low. -/
def pins_no_reset : Pins :=
  { s1 := true, r1 := true, s2 := true, r2 := true, s3 := false, r3 := false }

/-- O holds (0,0) and (0,1), X holds (1,0), (1,1) and (2,0); O to move, cursor on (0,2). -/
def state_o_wins : Game :=
  { board := ![![O, O, EMPTY], ![X, X, EMPTY], ![X, EMPTY, EMPTY]],
    moves := 2, current_player := O, is_game_over := false }

/-! ## Auxiliary lemmas -/

theorem forAny_eq_true_iff :
    ∀ (n : Nat) (c : Fin n → Bool), forAny n c = true ↔ ∃ i, c i = true
  | 0, c => by simp [forAny]
  | n + 1, c => by
    rw [forAny, Fin.exists_fin_succ, ← forAny_eq_true_iff n (fun i => c i.succ)]
    cases c 0 <;> simp

theorem Board.set_same (board : Board) (i : Fin ROWS) (j : Fin COLS) (v : Nat) :
    Board.set board i j v i j = v := by
  simp [Board.set]

theorem Board.set_other (board : Board) (i r : Fin ROWS) (j c : Fin COLS) (v : Nat)
    (h : ¬(r = i ∧ c = j)) : Board.set board i j v r c = board r c := by
  simp [Board.set, h]

theorem is_valid_pos_cursor (moves : Nat) :
    is_valid_pos (get_curr_row moves) (get_curr_col moves) = decide (moves < ROWS * COLS) := by
  simp only [is_valid_pos, get_curr_row, get_curr_col]
  by_cases h : moves < 3 * 3
  · have h1 : moves / 3 < 3 := by omega
    have h2 : moves % 3 < 3 := by omega
    simp [h, h1, h2]
  · have h1 : ¬ moves / 3 < 3 := by omega
    simp [h, h1]

theorem is_empty_pos_cursor (moves : Nat) (board : Board) (i : Fin ROWS) (j : Fin COLS)
    (hi : i.val = moves / ROWS) (hj : j.val = moves % COLS) :
    is_empty_pos (get_curr_row moves) (get_curr_col moves) board = some (board i j == EMPTY) := by
  obtain ⟨i, hi'⟩ := i
  obtain ⟨j, hj'⟩ := j
  simp only at hi hj
  subst hi hj
  simp [is_empty_pos, get_curr_row, get_curr_col, hi', hj']

theorem update_board_cursor (player moves : Nat) (board : Board) (i : Fin ROWS) (j : Fin COLS)
    (hi : i.val = moves / ROWS) (hj : j.val = moves % COLS) :
    update_board player moves board = some (Board.set board i j player) := by
  obtain ⟨i, hi'⟩ := i
  obtain ⟨j, hj'⟩ := j
  simp only at hi hj
  subst hi hj
  simp [update_board, get_curr_row, get_curr_col, hi', hj']

theorem is_tie_eq_true_iff (board : Board) :
    is_tie board = true ↔ ∀ i j, board i j ≠ EMPTY := by
  unfold is_tie
  split_ifs with h
  · simp only [forAny_eq_true_iff, beq_iff_eq] at h
    obtain ⟨i, j, hij⟩ := h
    simp only [Bool.false_eq_true, false_iff, not_forall, not_not]
    exact ⟨i, j, hij⟩
  · simp only [forAny_eq_true_iff, beq_iff_eq, not_exists] at h
    simpa using h

theorem reset_board_fst (g : Game) :
    (reset_board g).1 =
      { board := fun _ _ => EMPTY, moves := 0, current_player := X, is_game_over := false } := by
  have hb : forLoop ROWS (fun i b => forLoop COLS (fun j b => Board.set b i j EMPTY) b) g.board
      = fun _ _ => EMPTY := by
    funext r c
    fin_cases r <;> fin_cases c <;> rfl
  simp [reset_board, hb]

theorem pushes_append (xs ys : List Effect) : pushes (xs ++ ys) = pushes xs ++ pushes ys := by
  induction xs with
  | nil => rfl
  | cons e es ih => cases e <;> simp [pushes, ih]

theorem pushes_debounce (btn : BtnState) (level : Bool) : pushes (debounce btn level).2 = [] := by
  obtain ⟨pin, pv, cv⟩ := btn
  cases pv <;> cases cv <;> cases level <;> rfl

theorem pushes_update_btn_state (btn : BtnState) (level : Bool) :
    pushes (update_btn_state btn level).2 = [] := rfl

theorem is_win_eq_true_iff (player : Nat) (board : Board) :
    is_win player board = true ↔
      ((∃ i : Fin ROWS, board i 0 = player ∧ board i 1 = player ∧ board i 2 = player) ∨
       (∃ j : Fin COLS, board 0 j = player ∧ board 1 j = player ∧ board 2 j = player) ∨
       (board 0 0 = player ∧ board 1 1 = player ∧ board 2 2 = player) ∨
       (board 0 2 = player ∧ board 1 1 = player ∧ board 2 0 = player)) := by
  unfold is_win
  simp only [forAny_eq_true_iff, Bool.and_eq_true, beq_iff_eq, and_assoc]
  split_ifs with h1 h2 h3 h4 <;> simp_all

/-- What `handle_btn2` does once the cursor addresses an in-bounds empty cell
`(i, j)`: the three-way branch on the board that holds the new mark. -/
theorem handle_btn2_of_empty (g : Game) (i : Fin ROWS) (j : Fin COLS)
    (hm : g.moves < ROWS * COLS)
    (hi : i.val = g.moves / ROWS) (hj : j.val = g.moves % COLS)
    (hempty : g.board i j = EMPTY) :
    handle_btn2 g =
      if is_win g.current_player (Board.set g.board i j g.current_player) then
        some ({ g with board := Board.set g.board i j g.current_player, is_game_over := true },
              [Effect.fifo_push g.current_player])
      else if is_tie (Board.set g.board i j g.current_player) then
        some (reset_board { g with board := Board.set g.board i j g.current_player })
      else
        some ({ g with board := Board.set g.board i j g.current_player, moves := 0,
                       current_player := get_new_player g.current_player }, []) := by
  have hm3 : g.moves < 3 * 3 := hm
  simp [handle_btn2, is_valid_pos_cursor, hm3, is_empty_pos_cursor g.moves g.board i j hi hj,
    hempty, update_board_cursor g.current_player g.moves g.board i j hi hj]

/-- A mark that completes a line through the only empty cell is not the empty
character: the other two cells of that line were occupied before. -/
theorem player_ne_EMPTY_of_win (board : Board) (i : Fin ROWS) (j : Fin COLS) (player : Nat)
    (honly : ∀ r c, board r c = EMPTY ↔ (r = i ∧ c = j))
    (hwin : is_win player (Board.set board i j player) = true) : player ≠ EMPTY := by
  intro hp
  subst hp
  have hset : Board.set board i j EMPTY = board := by
    funext r c
    by_cases h : r = i ∧ c = j
    · obtain ⟨rfl, rfl⟩ := h
      rw [Board.set_same]
      exact ((honly r c).mpr ⟨rfl, rfl⟩).symm
    · exact Board.set_other board i r j c EMPTY h
  rw [hset, is_win_eq_true_iff] at hwin
  simp only [honly] at hwin
  rcases hwin with ⟨r, h0, h1, _⟩ | ⟨c, h0, h1, _⟩ | ⟨h0, h1, _⟩ | ⟨h0, h1, _⟩
  · exact absurd (h0.2.trans h1.2.symm) (by decide)
  · exact absurd (h0.1.trans h1.1.symm) (by decide)
  · exact absurd (h0.1.trans h1.1.symm) (by decide)
  · exact absurd (h0.1.trans h1.1.symm) (by decide)

/-- Writing a non-empty mark into the only empty cell leaves no empty cell. -/
theorem is_tie_set_only_empty (board : Board) (i : Fin ROWS) (j : Fin COLS) (player : Nat)
    (honly : ∀ r c, board r c = EMPTY ↔ (r = i ∧ c = j)) (hp : player ≠ EMPTY) :
    is_tie (Board.set board i j player) = true := by
  rw [is_tie_eq_true_iff]
  intro r c
  by_cases h : r = i ∧ c = j
  · obtain ⟨rfl, rfl⟩ := h
    rw [Board.set_same]
    exact hp
  · rw [Board.set_other board i r j c player h]
    exact fun he => h ((honly r c).mp he)

theorem is_valid_pos_eq_true_iff (row col : Nat) :
    is_valid_pos row col = true ↔ row < 3 ∧ col < 3 := by
  simp [is_valid_pos]

theorem update_position_eq (i : Nat) (hi : i < 2 ^ 32) :
    update_position i = if i + 1 ≤ 8 then i + 1 else 0 := by
  unfold update_position
  simp only [get_next_row, get_next_col, is_valid_pos_eq_true_iff]
  dsimp only [ROWS, COLS]
  by_cases h : i + 1 ≤ 8
  · have h1 : (i + 1) % 2 ^ 32 = i + 1 := Nat.mod_eq_of_lt (by omega)
    rw [h1, if_pos h, if_pos (by omega)]
  · rw [if_neg h]
    by_cases hw : i + 1 = 2 ^ 32
    · rw [hw]
      simp
    · have h1 : (i + 1) % 2 ^ 32 = i + 1 := Nat.mod_eq_of_lt (by omega)
      rw [h1, if_neg (by omega)]

theorem handle_btn1_of_lt (i : Nat) (hi : i < 9) : handle_btn1 i = (i + 1) % 9 := by
  unfold handle_btn1
  rw [update_position_eq i (by omega)]
  split_ifs <;> omega

theorem iterate_handle_btn1 (i : Nat) (hi : i < 9) :
    ∀ k : Nat, Nat.iterate handle_btn1 k i = (i + k) % 9
  | 0 => by simp [Nat.mod_eq_of_lt hi]
  | k + 1 => by
    rw [Function.iterate_succ_apply', iterate_handle_btn1 i hi k,
      handle_btn1_of_lt _ (Nat.mod_lt _ (by decide))]
    omega

theorem handle_btn2_of_occupied (g : Game) (i : Fin ROWS) (j : Fin COLS)
    (hm : g.moves < ROWS * COLS)
    (hi : i.val = g.moves / ROWS) (hj : j.val = g.moves % COLS)
    (hocc : g.board i j ≠ EMPTY) :
    handle_btn2 g = some (g, []) := by
  have hm3 : g.moves < 3 * 3 := hm
  simp [handle_btn2, is_valid_pos_cursor, hm3, is_empty_pos_cursor g.moves g.board i j hi hj,
    hocc]

theorem Game.valid_reset_board (g : Game) : Game.valid (reset_board g).1 := by
  rw [reset_board_fst]
  exact ⟨fun _ _ => Or.inl rfl, Or.inl rfl, by decide⟩

theorem get_new_player_X_or_O (p : Nat) : get_new_player p = X ∨ get_new_player p = O := by
  unfold get_new_player
  split_ifs
  · exact Or.inr rfl
  · exact Or.inl rfl

theorem Board.set_cells (board : Board) (i : Fin ROWS) (j : Fin COLS) (p : Nat)
    (hb : ∀ r c, board r c = EMPTY ∨ board r c = X ∨ board r c = O) (hp : p = X ∨ p = O) :
    ∀ r c, Board.set board i j p r c = EMPTY ∨ Board.set board i j p r c = X ∨
      Board.set board i j p r c = O := by
  intro r c
  by_cases h : r = i ∧ c = j
  · obtain ⟨rfl, rfl⟩ := h
    rw [Board.set_same]
    exact Or.inr hp
  · rw [Board.set_other board i r j c p h]
    exact hb r c

theorem handle_btn2_valid (g : Game) (hg : Game.valid g) :
    ∃ r, handle_btn2 g = some r ∧ Game.valid r.1 := by
  obtain ⟨hb, hp, hm⟩ := hg
  have hm3 : g.moves < 3 * 3 := hm
  have hi : g.moves / 3 < 3 := by omega
  have hj : g.moves % 3 < 3 := by omega
  by_cases hempty : g.board ⟨g.moves / 3, hi⟩ ⟨g.moves % 3, hj⟩ = EMPTY
  · rw [handle_btn2_of_empty g ⟨g.moves / 3, hi⟩ ⟨g.moves % 3, hj⟩ hm rfl rfl hempty]
    split_ifs
    · exact ⟨_, rfl, Board.set_cells _ _ _ _ hb hp, hp, hm⟩
    · exact ⟨_, rfl, Game.valid_reset_board _⟩
    · exact ⟨_, rfl, Board.set_cells _ _ _ _ hb hp, get_new_player_X_or_O _,
        (by decide : (0 : Nat) < ROWS * COLS)⟩
  · exact ⟨_, handle_btn2_of_occupied g ⟨g.moves / 3, hi⟩ ⟨g.moves % 3, hj⟩ hm rfl rfl hempty,
      hb, hp, hm⟩

theorem Game.valid_handle_btn1 (g : Game) (hg : Game.valid g) :
    Game.valid { g with moves := handle_btn1 g.moves } := by
  obtain ⟨hb, hp, hm⟩ := hg
  have hm9 : g.moves < 9 := hm
  refine ⟨hb, hp, ?_⟩
  show handle_btn1 g.moves < 3 * 3
  rw [handle_btn1_of_lt g.moves hm9]
  omega

theorem main_loop_play_tail (g1 : Game) (hg1 : Game.valid g1) (b : Bool) (m2 : Main)
    (io : List Effect) :
    ∃ r, (if b = true then
        match handle_btn2 g1 with
        | none => none
        | some r => some ({ m2 with game := r.1 }, io ++ r.2)
      else some ({ m2 with game := g1 }, io)) = some r ∧ Game.valid r.1.game := by
  obtain ⟨r2, hr2, hv2⟩ := handle_btn2_valid g1 hg1
  cases b
  · exact ⟨_, rfl, hg1⟩
  · rw [hr2]
    exact ⟨_, rfl, hv2⟩

theorem main_loop_play_valid (m : Main) (p : Pins) (hg : Game.valid m.game) :
    ∃ r, main_loop_play m p = some r ∧ Game.valid r.1.game := by
  have hg1 : Game.valid (if (debounce (update_btn_state m.btn1 p.s1).1 p.r1).1 = true then
      { m.game with moves := handle_btn1 m.game.moves } else m.game) := by
    split_ifs
    · exact Game.valid_handle_btn1 m.game hg
    · exact hg
  exact main_loop_play_tail _ hg1 (debounce (update_btn_state m.btn2 p.s2).1 p.r2).1
    { m with btn1 := (update_btn_state m.btn1 p.s1).1, btn2 := (update_btn_state m.btn2 p.s2).1 }
    _

theorem main_loop_iter_valid (m : Main) (p : Pins) (hg : Game.valid m.game) :
    ∃ r, main_loop_iter m p = some r ∧ Game.valid r.1.game := by
  have hfirst : ∃ r, (if (!m.game.is_game_over) = true then main_loop_play m p
      else some (m, [])) = some r ∧ Game.valid r.1.game := by
    split_ifs
    · exact main_loop_play_valid m p hg
    · exact ⟨_, rfl, hg⟩
  obtain ⟨⟨m1, e1⟩, hr1, hv1⟩ := hfirst
  unfold main_loop_iter
  rw [hr1]
  simp only
  split_ifs
  · exact ⟨_, rfl, Game.valid_reset_board _⟩
  · exact ⟨_, rfl, hv1⟩

theorem main_loop_valid :
    ∀ (ps : List Pins) (s : Main × List Effect), Game.valid s.1.game →
      ∃ r, main_loop ps s = some r ∧ Game.valid r.1.game
  | [], s, hs => ⟨s, rfl, hs⟩
  | p :: ps, s, hs => by
    obtain ⟨r, hr, hv⟩ := main_loop_iter_valid s.1 p hs
    rw [main_loop, hr]
    exact main_loop_valid ps (r.1, s.2 ++ r.2) hv

theorem main_run_valid (ps : List Pins) :
    ∃ r, main_run ps = some r ∧ Game.valid r.1.game :=
  main_loop_valid ps main_init (Game.valid_reset_board _)

theorem is_win_of_set (board : Board) (i : Fin ROWS) (j : Fin COLS) (p q : Nat) (hq : q ≠ p)
    (h : is_win q (Board.set board i j p) = true) : is_win q board = true := by
  have key : ∀ r c, Board.set board i j p r c = q → board r c = q := by
    intro r c hrc
    by_cases hij : r = i ∧ c = j
    · obtain ⟨rfl, rfl⟩ := hij
      rw [Board.set_same] at hrc
      exact absurd hrc.symm hq
    · rwa [Board.set_other board i r j c p hij] at hrc
  rw [is_win_eq_true_iff] at h ⊢
  rcases h with ⟨r, h0, h1, h2⟩ | ⟨c, h0, h1, h2⟩ | ⟨h0, h1, h2⟩ | ⟨h0, h1, h2⟩
  · exact Or.inl ⟨r, key _ _ h0, key _ _ h1, key _ _ h2⟩
  · exact Or.inr (Or.inl ⟨c, key _ _ h0, key _ _ h1, key _ _ h2⟩)
  · exact Or.inr (Or.inr (Or.inl ⟨key _ _ h0, key _ _ h1, key _ _ h2⟩))
  · exact Or.inr (Or.inr (Or.inr ⟨key _ _ h0, key _ _ h1, key _ _ h2⟩))

theorem Board.count_set_self (board : Board) (i : Fin ROWS) (j : Fin COLS) (p : Nat)
    (hb : board i j ≠ p) :
    Board.count (Board.set board i j p) p = Board.count board p + 1 := by
  unfold Board.count
  have h : Finset.univ.filter (fun rc : Fin ROWS × Fin COLS => Board.set board i j p rc.1 rc.2 = p)
      = insert (i, j) (Finset.univ.filter (fun rc : Fin ROWS × Fin COLS => board rc.1 rc.2 = p)) := by
    ext ⟨r, c⟩
    simp only [Finset.mem_filter, Finset.mem_univ, true_and, Finset.mem_insert, Prod.mk.injEq]
    by_cases hij : r = i ∧ c = j
    · obtain ⟨rfl, rfl⟩ := hij
      simp [Board.set_same]
    · rw [Board.set_other board i r j c p hij]
      simp [hij]
  rw [h, Finset.card_insert_of_not_mem]
  simp [hb]

theorem Board.count_set_other (board : Board) (i : Fin ROWS) (j : Fin COLS) (p v : Nat)
    (hb : board i j ≠ v) (hp : p ≠ v) :
    Board.count (Board.set board i j p) v = Board.count board v := by
  unfold Board.count
  congr 1
  ext ⟨r, c⟩
  simp only [Finset.mem_filter, Finset.mem_univ, true_and]
  by_cases hij : r = i ∧ c = j
  · obtain ⟨rfl, rfl⟩ := hij
    simp [Board.set_same, hb, hp]
  · rw [Board.set_other board i r j c p hij]

theorem Game.inv_reset_board (g : Game) : Game.inv (reset_board g).1 := by
  refine ⟨Game.valid_reset_board g, ?_⟩
  rw [reset_board_fst]
  refine ⟨fun _ => ⟨by decide, by decide⟩, fun h => absurd h (by decide), ?_, fun _ => ?_⟩
  · left
    simp [Board.count]
  · simp [Board.count]
theorem get_new_player_ne (p : Nat) : get_new_player p ≠ p := by
  unfold get_new_player
  split_ifs with h
  · have hp : p = X := by simpa using h
    rw [hp]
    decide
  · intro hx
    exact h (by simp [← hx])

theorem handle_btn2_inv (g : Game) (hg : Game.inv g) (hover : g.is_game_over = false) :
    ∃ r, handle_btn2 g = some r ∧ Game.inv r.1 := by
  obtain ⟨hv, hnw, _, _, hturn⟩ := hg
  obtain ⟨hb, hp, hm⟩ := hv
  obtain ⟨hnx, hno⟩ := hnw hover
  obtain ⟨htx, hto⟩ := hturn hover
  have hm3 : g.moves < 3 * 3 := hm
  have hi : g.moves / 3 < 3 := by omega
  have hj : g.moves % 3 < 3 := by omega
  by_cases hempty : g.board ⟨g.moves / 3, hi⟩ ⟨g.moves % 3, hj⟩ = EMPTY
  · rw [handle_btn2_of_empty g ⟨g.moves / 3, hi⟩ ⟨g.moves % 3, hj⟩ hm rfl rfl hempty]
    have hvalid' := Board.set_cells g.board ⟨g.moves / 3, hi⟩ ⟨g.moves % 3, hj⟩
      g.current_player hb hp
    have hq := get_new_player_X_or_O g.current_player
    have hother : is_win (get_new_player g.current_player)
        (Board.set g.board ⟨g.moves / 3, hi⟩ ⟨g.moves % 3, hj⟩ g.current_player) = false := by
      by_contra hc
      have hw := is_win_of_set g.board _ _ g.current_player _
        (get_new_player_ne g.current_player) (by simpa using hc)
      rcases hq with hq | hq <;> rw [hq] at hw <;> simp_all
    have hcount : (g.current_player = X ∧
          Board.count (Board.set g.board ⟨g.moves / 3, hi⟩ ⟨g.moves % 3, hj⟩ g.current_player) X
            = Board.count (Board.set g.board ⟨g.moves / 3, hi⟩ ⟨g.moves % 3, hj⟩
                g.current_player) O + 1) ∨
        (g.current_player = O ∧
          Board.count (Board.set g.board ⟨g.moves / 3, hi⟩ ⟨g.moves % 3, hj⟩ g.current_player) X
            = Board.count (Board.set g.board ⟨g.moves / 3, hi⟩ ⟨g.moves % 3, hj⟩
                g.current_player) O) := by
      rcases hp with hp | hp
      · left
        refine ⟨hp, ?_⟩
        rw [hp, Board.count_set_self _ _ _ _ (by rw [hempty]; decide),
          Board.count_set_other _ _ _ _ _ (by rw [hempty]; decide) (by decide), htx.mp hp]
      · right
        refine ⟨hp, ?_⟩
        rw [hp, Board.count_set_self _ _ _ _ (by rw [hempty]; decide),
          Board.count_set_other _ _ _ _ _ (by rw [hempty]; decide) (by decide), hto.mp hp]
    split_ifs with hw ht
    · refine ⟨_, rfl, ⟨hvalid', hp, hm⟩, fun h => by simp at h, fun _ => ⟨hw, hother⟩,
        ?_, fun h => by simp at h⟩
      rcases hcount with ⟨_, hc⟩ | ⟨_, hc⟩
      · exact Or.inr hc
      · exact Or.inl hc
    · exact ⟨_, rfl, Game.inv_reset_board _⟩
    · have hw' : is_win g.current_player
          (Board.set g.board ⟨g.moves / 3, hi⟩ ⟨g.moves % 3, hj⟩ g.current_player) = false := by
        simpa using hw
      refine ⟨_, rfl, ⟨hvalid', hq, (by decide : (0 : Nat) < ROWS * COLS)⟩, fun _ => ?_,
        fun h => absurd (hover.symm.trans h) (by decide), ?_, fun _ => ?_⟩
      · rcases hcount with ⟨hpx, _⟩ | ⟨hpo, _⟩
        · have hgn : get_new_player g.current_player = O := by rw [hpx]; rfl
          exact ⟨hpx ▸ hw', hgn ▸ hother⟩
        · have hgn : get_new_player g.current_player = X := by rw [hpo]; rfl
          exact ⟨hgn ▸ hother, hpo ▸ hw'⟩
      · rcases hcount with ⟨_, hc⟩ | ⟨_, hc⟩
        · exact Or.inr hc
        · exact Or.inl hc
      · rcases hcount with ⟨hpx, hc⟩ | ⟨hpo, hc⟩
        · show (get_new_player g.current_player = X ↔ _) ∧ (get_new_player g.current_player = O ↔ _)
          rw [hpx] at hc ⊢
          rw [hc]
          simp [get_new_player]
        · show (get_new_player g.current_player = X ↔ _) ∧ (get_new_player g.current_player = O ↔ _)
          rw [hpo] at hc ⊢
          rw [hc]
          simp [get_new_player]
  · exact ⟨_, handle_btn2_of_occupied g ⟨g.moves / 3, hi⟩ ⟨g.moves % 3, hj⟩ hm rfl rfl hempty,
      ⟨hb, hp, hm⟩, hnw, fun h => absurd (hover.symm.trans h) (by decide), by assumption, hturn⟩
theorem Game.inv_handle_btn1 (g : Game) (hg : Game.inv g) :
    Game.inv { g with moves := handle_btn1 g.moves } := by
  obtain ⟨hv, h1, h2, h3, h4⟩ := hg
  exact ⟨Game.valid_handle_btn1 g hv, h1, h2, h3, h4⟩

theorem main_loop_play_tail_preserves (P : Game → Prop) (g1 : Game) (hg1 : P g1)
    (hsel : ∃ r, handle_btn2 g1 = some r ∧ P r.1) (b : Bool) (m2 : Main) (io : List Effect) :
    ∃ r, (if b = true then
        match handle_btn2 g1 with
        | none => none
        | some r => some ({ m2 with game := r.1 }, io ++ r.2)
      else some ({ m2 with game := g1 }, io)) = some r ∧ P r.1.game := by
  obtain ⟨r2, hr2, hv2⟩ := hsel
  cases b
  · exact ⟨_, rfl, hg1⟩
  · rw [hr2]
    exact ⟨_, rfl, hv2⟩

theorem main_loop_play_preserves (P : Game → Prop)
    (hcursor : ∀ g, P g → g.is_game_over = false → P { g with moves := handle_btn1 g.moves })
    (hselect : ∀ g, P g → g.is_game_over = false → ∃ r, handle_btn2 g = some r ∧ P r.1)
    (m : Main) (p : Pins) (hm : P m.game) (hover : m.game.is_game_over = false) :
    ∃ r, main_loop_play m p = some r ∧ P r.1.game := by
  have hg1 : P (if (debounce (update_btn_state m.btn1 p.s1).1 p.r1).1 = true then
        { m.game with moves := handle_btn1 m.game.moves } else m.game) ∧
      (if (debounce (update_btn_state m.btn1 p.s1).1 p.r1).1 = true then
        { m.game with moves := handle_btn1 m.game.moves } else m.game).is_game_over = false := by
    split_ifs
    · exact ⟨hcursor _ hm hover, hover⟩
    · exact ⟨hm, hover⟩
  exact main_loop_play_tail_preserves P _ hg1.1 (hselect _ hg1.1 hg1.2)
    (debounce (update_btn_state m.btn2 p.s2).1 p.r2).1
    { m with btn1 := (update_btn_state m.btn1 p.s1).1, btn2 := (update_btn_state m.btn2 p.s2).1 }
    _

theorem main_loop_iter_preserves (P : Game → Prop)
    (hreset : ∀ g, P (reset_board g).1)
    (hcursor : ∀ g, P g → g.is_game_over = false → P { g with moves := handle_btn1 g.moves })
    (hselect : ∀ g, P g → g.is_game_over = false → ∃ r, handle_btn2 g = some r ∧ P r.1)
    (m : Main) (p : Pins) (hm : P m.game) :
    ∃ r, main_loop_iter m p = some r ∧ P r.1.game := by
  have hfirst : ∃ r, (if (!m.game.is_game_over) = true then main_loop_play m p
      else some (m, [])) = some r ∧ P r.1.game := by
    split_ifs with h
    · exact main_loop_play_preserves P hcursor hselect m p hm (by simpa using h)
    · exact ⟨_, rfl, hm⟩
  obtain ⟨⟨m1, e1⟩, hr1, hv1⟩ := hfirst
  unfold main_loop_iter
  rw [hr1]
  simp only
  split_ifs
  · exact ⟨_, rfl, hreset _⟩
  · exact ⟨_, rfl, hv1⟩

theorem main_loop_preserves (P : Game → Prop)
    (hreset : ∀ g, P (reset_board g).1)
    (hcursor : ∀ g, P g → g.is_game_over = false → P { g with moves := handle_btn1 g.moves })
    (hselect : ∀ g, P g → g.is_game_over = false → ∃ r, handle_btn2 g = some r ∧ P r.1) :
    ∀ (ps : List Pins) (s : Main × List Effect), P s.1.game →
      ∃ r, main_loop ps s = some r ∧ P r.1.game
  | [], s, hs => ⟨s, rfl, hs⟩
  | p :: ps, s, hs => by
    obtain ⟨r, hr, hv⟩ := main_loop_iter_preserves P hreset hcursor hselect s.1 p hs
    rw [main_loop, hr]
    exact main_loop_preserves P hreset hcursor hselect ps (r.1, s.2 ++ r.2) hv

theorem run_events_preserves (P : Game → Prop)
    (hreset : ∀ g, P (reset_board g).1)
    (hcursor : ∀ g, P g → g.is_game_over = false → P { g with moves := handle_btn1 g.moves })
    (hselect : ∀ g, P g → g.is_game_over = false → ∃ r, handle_btn2 g = some r ∧ P r.1) :
    ∀ (es : List Event) (g : Game), P g → ∃ r, run_events es g = some r ∧ P r.1
  | [], g, hg => ⟨_, rfl, hg⟩
  | e :: es, g, hg => by
    have hstep : ∃ r, handle_event g e = some r ∧ P r.1 := by
      cases e
      · unfold handle_event
        split_ifs with h
        · exact ⟨_, rfl, hcursor g hg (by simpa using h)⟩
        · exact ⟨_, rfl, hg⟩
      · unfold handle_event
        split_ifs with h
        · exact hselect g hg (by simpa using h)
        · exact ⟨_, rfl, hg⟩
      · exact ⟨_, rfl, hreset g⟩
    obtain ⟨r, hr, hv⟩ := hstep
    obtain ⟨r1, hr1, hv1⟩ := run_events_preserves P hreset hcursor hselect es r.1 hv
    rw [run_events, hr]
    simp only
    rw [hr1]
    exact ⟨_, rfl, hv1⟩

theorem main_run_inv (ps : List Pins) : ∃ r, main_run ps = some r ∧ Game.inv r.1.game :=
  main_loop_preserves Game.inv Game.inv_reset_board
    (fun g hg _ => Game.inv_handle_btn1 g hg) handle_btn2_inv ps main_init
    (Game.inv_reset_board _)

theorem run_events_inv (es : List Event) (g : Game) (hg : Game.inv g) :
    ∃ r, run_events es g = some r ∧ Game.inv r.1 :=
  run_events_preserves Game.inv Game.inv_reset_board
    (fun g hg _ => Game.inv_handle_btn1 g hg) handle_btn2_inv es g hg
theorem pushes_update_player_led (p : Nat) : pushes (update_player_led p) = [] := by
  unfold update_player_led
  split_ifs <;> rfl

theorem main_loop_iter_events (m : Main) (p : Pins) :
    (main_loop_iter m p).map (fun r => (r.1.game, pushes r.2)) =
      (run_events (iter_events m p) m.game).map (fun r => (r.1, pushes r.2)) := by
  unfold main_loop_iter iter_events main_loop_play
  cases hover : m.game.is_game_over <;>
  cases h1 : (debounce (update_btn_state m.btn1 p.s1).1 p.r1).1 <;>
  cases h2 : (debounce (update_btn_state m.btn2 p.s2).1 p.r2).1 <;>
  cases h3 : (debounce (update_btn_state m.btn3 p.s3).1 p.r3).1 <;>
  simp [run_events, handle_event, hover, h1, h2, h3, pushes_append, pushes_debounce,
    pushes_update_btn_state, pushes_update_player_led, pushes] <;>
  generalize handle_btn2 _ = o <;>
  cases o <;>
  simp [h3, pushes_append, pushes_debounce, pushes_update_btn_state,
    pushes_update_player_led, pushes]

theorem run_events_append (es1 es2 : List Event) :
    ∀ (g g1 : Game) (io1 : List Effect), run_events es1 g = some (g1, io1) →
      run_events (es1 ++ es2) g = (run_events es2 g1).map (fun r => (r.1, io1 ++ r.2)) := by
  induction es1 with
  | nil =>
    intro g g1 io1 h
    simp only [run_events, Option.some.injEq, Prod.mk.injEq] at h
    obtain ⟨rfl, rfl⟩ := h
    cases hx : run_events es2 g <;> simp [hx]
  | cons e es ih =>
    intro g g1 io1 h
    rw [List.cons_append, run_events]
    rw [run_events] at h
    cases he : handle_event g e with
    | none => rw [he] at h; simp at h
    | some r =>
      rw [he] at h
      simp only at h ⊢
      cases hr : run_events es r.1 with
      | none => rw [hr] at h; simp at h
      | some r1 =>
        rw [hr] at h
        simp only [Option.some.injEq, Prod.mk.injEq] at h
        obtain ⟨rfl, rfl⟩ := h
        rw [ih r.1 r1.1 r1.2 hr]
        cases hx : run_events es2 r1.1 <;> simp [hx, List.append_assoc]

theorem is_valid_pos_cpp_eq (row col : Nat) : Cpp.is_valid_pos row col = is_valid_pos row col := by
  simp [Cpp.is_valid_pos, is_valid_pos]

theorem handle_btn2_of_invalid (g : Game) (h9 : ROWS * COLS ≤ g.moves) :
    handle_btn2 g = some (g, []) := by
  have h : ¬ g.moves < 3 * 3 := Nat.not_lt.mpr h9
  simp [handle_btn2, is_valid_pos_cursor, h]

theorem Board.count_set_remove (board : Board) (i : Fin ROWS) (j : Fin COLS) (p v : Nat)
    (hb : board i j = v) (hp : p ≠ v) :
    Board.count (Board.set board i j p) v + 1 = Board.count board v := by
  unfold Board.count
  have h : Finset.univ.filter (fun rc : Fin ROWS × Fin COLS => Board.set board i j p rc.1 rc.2 = v)
      = (Finset.univ.filter (fun rc : Fin ROWS × Fin COLS => board rc.1 rc.2 = v)).erase
          (i, j) := by
    ext ⟨r, c⟩
    simp only [Finset.mem_filter, Finset.mem_univ, true_and, Finset.mem_erase, ne_eq,
      Prod.mk.injEq]
    by_cases hij : r = i ∧ c = j
    · obtain ⟨rfl, rfl⟩ := hij
      simp [Board.set_same, hp]
    · rw [Board.set_other board i r j c p hij]
      simp [hij]
  rw [h]
  exact Finset.card_erase_add_one (by simp [hb])

theorem Board.count_pos_of_not_tie (board : Board) (h : is_tie board = false) :
    1 ≤ Board.count board EMPTY := by
  have hn : ¬ is_tie board = true := by simp [h]
  rw [is_tie_eq_true_iff] at hn
  simp only [not_forall, not_not] at hn
  obtain ⟨i, j, hij⟩ := hn
  unfold Board.count
  exact Finset.card_pos.mpr ⟨(i, j), by simp [hij]⟩

theorem accepts_of_empty (g : Game) (i : Fin ROWS) (j : Fin COLS)
    (hm : g.moves < ROWS * COLS)
    (hi : i.val = g.moves / ROWS) (hj : j.val = g.moves % COLS) :
    accepts g = (!g.is_game_over && (g.board i j == EMPTY)) := by
  have hm3 : g.moves < 3 * 3 := hm
  unfold accepts
  rw [is_valid_pos_cursor, is_empty_pos_cursor g.moves g.board i j hi hj]
  cases g.is_game_over <;> cases h : (g.board i j == EMPTY) <;> simp [hm3]

theorem handle_event_placement (g : Game) (hv : Game.valid g) (e : Event)
    (he : e ≠ Event.reset) :
    ∃ r, handle_event g e = some r ∧ Game.valid r.1 ∧
      (pushes r.2 = [] →
        (if e = Event.select ∧ accepts g = true then 1 else 0) +
            Board.count r.1.board EMPTY = Board.count g.board EMPTY ∧
          (e = Event.select ∧ accepts g = true → 1 ≤ Board.count r.1.board EMPTY)) := by
  have hm : g.moves < ROWS * COLS := hv.2.2
  have hm3 : g.moves < 3 * 3 := hm
  have hi : g.moves / 3 < 3 := by omega
  have hj : g.moves % 3 < 3 := by omega
  have hacc := accepts_of_empty g ⟨g.moves / 3, hi⟩ ⟨g.moves % 3, hj⟩ hm rfl rfl
  cases e with
  | reset => exact absurd rfl he
  | cursor =>
    cases hover : g.is_game_over
    · exact ⟨({ g with moves := handle_btn1 g.moves }, []), by simp [handle_event, hover],
        Game.valid_handle_btn1 g hv, fun _ => ⟨by simp, by simp⟩⟩
    · exact ⟨(g, []), by simp [handle_event, hover], hv, fun _ => ⟨by simp, by simp⟩⟩
  | select =>
    cases hover : g.is_game_over
    · have hev : handle_event g Event.select = handle_btn2 g := by simp [handle_event, hover]
      rw [hev]
      by_cases hempty : g.board ⟨g.moves / 3, hi⟩ ⟨g.moves % 3, hj⟩ = EMPTY
      · have ha : accepts g = true := by rw [hacc, hover]; simp [hempty]
        have hpe : g.current_player ≠ EMPTY := by
          rcases hv.2.1 with h | h <;> rw [h] <;> decide
        obtain ⟨r, hr, hvr⟩ := handle_btn2_valid g hv
        refine ⟨r, hr, hvr, ?_⟩
        rw [handle_btn2_of_empty g ⟨g.moves / 3, hi⟩ ⟨g.moves % 3, hj⟩ hm rfl rfl hempty] at hr
        split_ifs at hr with hw ht
        · simp only [Option.some.injEq] at hr
          subst hr
          intro hp
          simp [pushes] at hp
        · simp only [Option.some.injEq] at hr
          subst hr
          intro hp
          simp [reset_board, pushes] at hp
        · simp only [Option.some.injEq] at hr
          subst hr
          intro _
          simp only [true_and, ha, if_true]
          refine ⟨?_, fun _ => ?_⟩
          · rw [Nat.add_comm]
            exact Board.count_set_remove g.board _ _ g.current_player EMPTY hempty hpe
          · exact Board.count_pos_of_not_tie _ (by simpa using ht)
      · have ha : accepts g = false := by rw [hacc, hover]; simp [hempty]
        exact ⟨_, handle_btn2_of_occupied g ⟨g.moves / 3, hi⟩ ⟨g.moves % 3, hj⟩ hm rfl rfl
          hempty, hv, fun _ => ⟨by simp [ha], by simp [ha]⟩⟩
    · have ha : accepts g = false := by rw [hacc, hover]; simp
      exact ⟨(g, []), by simp [handle_event, hover], hv, fun _ => ⟨by simp [ha], by simp [ha]⟩⟩

theorem placements_run :
    ∀ (es : List Event) (g : Game), Game.valid g → (∀ e ∈ es, e ≠ Event.reset) →
      ∃ r, run_events es g = some r ∧ Game.valid r.1 ∧
        (pushes r.2 = [] →
          placements es g + Board.count r.1.board EMPTY = Board.count g.board EMPTY ∧
            (0 < placements es g → 1 ≤ Board.count r.1.board EMPTY))
  | [], g, hv, _ => ⟨(g, []), rfl, hv, fun _ => ⟨by simp [placements], by simp [placements]⟩⟩
  | e :: es, g, hv, hne => by
    obtain ⟨r, hr, hvr, hstep⟩ :=
      handle_event_placement g hv e (hne e (List.mem_cons_self e es))
    obtain ⟨r1, hr1, hv1, hrest⟩ :=
      placements_run es r.1 hvr (fun e1 h1 => hne e1 (List.mem_cons_of_mem e h1))
    have hrun : run_events (e :: es) g = some (r1.1, r.2 ++ r1.2) := by
      rw [run_events, hr]
      simp only
      rw [hr1]
    have hpl : placements (e :: es) g =
        (if e = Event.select ∧ accepts g = true then 1 else 0) + placements es r.1 := by
      rw [placements, hr]
    refine ⟨_, hrun, hv1, ?_⟩
    intro hp
    dsimp only at hp ⊢
    rw [pushes_append] at hp
    obtain ⟨hp1, hp2⟩ := List.append_eq_nil.mp hp
    obtain ⟨h1, h2⟩ := hstep hp1
    obtain ⟨h3, h4⟩ := hrest hp2
    rw [hpl]
    by_cases hc : e = Event.select ∧ accepts g = true
    · rw [if_pos hc] at h1 ⊢
      have h2c := h2 hc
      refine ⟨by omega, fun _ => ?_⟩
      by_cases hz : 0 < placements es r.1
      · exact h4 hz
      · omega
    · rw [if_neg hc] at h1 ⊢
      refine ⟨by omega, fun hpos => ?_⟩
      exact h4 (by omega)

theorem Board.count_reset_EMPTY (g : Game) : Board.count (reset_board g).1.board EMPTY = 9 := by
  rw [reset_board_fst]
  simp [Board.count]
  rfl

/-! ## Win detection -/

/-- C1. `is_win player board` is true exactly when one of the eight lines (a row,
a column, the main diagonal or the anti-diagonal) has all three cells equal to
`player`. -/
theorem is_win_iff_line (player : Nat) (board : Board) :
    is_win player board = true ↔
      ((∃ i : Fin ROWS, board i 0 = player ∧ board i 1 = player ∧ board i 2 = player) ∨
       (∃ j : Fin COLS, board 0 j = player ∧ board 1 j = player ∧ board 2 j = player) ∨
       (board 0 0 = player ∧ board 1 1 = player ∧ board 2 2 = player) ∨
       (board 0 2 = player ∧ board 1 1 = player ∧ board 2 0 = player)) :=
  is_win_eq_true_iff player board

/-! ## The select button: `handle_btn2` -/

/-- C2. When the cursor (index below 9) addresses an EMPTY cell and writing
`current_player` there makes `is_win` true, `handle_btn2` pushes exactly
`current_player` on the FIFO, sets `is_game_over`, keeps the board with the new
mark, and leaves `moves` and `current_player` as they were. -/
theorem handle_btn2_win (g : Game) (i : Fin ROWS) (j : Fin COLS)
    (hm : g.moves < ROWS * COLS)
    (hi : i.val = g.moves / ROWS) (hj : j.val = g.moves % COLS)
    (hempty : g.board i j = EMPTY)
    (hwin : is_win g.current_player (Board.set g.board i j g.current_player) = true) :
    handle_btn2 g =
        some ({ board := Board.set g.board i j g.current_player, moves := g.moves,
                current_player := g.current_player, is_game_over := true },
              [Effect.fifo_push g.current_player]) ∧
      Board.set g.board i j g.current_player i j = g.current_player ∧
      (∀ r c, ¬(r = i ∧ c = j) → Board.set g.board i j g.current_player r c = g.board r c) := by
  refine ⟨?_, Board.set_same _ _ _ _, fun r c h => Board.set_other _ _ _ _ _ _ h⟩
  rw [handle_btn2_of_empty g i j hm hi hj hempty, if_pos hwin]

theorem handle_btn2_win_witness :
    handle_btn2 state_row_win =
        some ({ board := Board.set state_row_win.board 0 2 X, moves := 2,
                current_player := X, is_game_over := true },
              [Effect.fifo_push X]) :=
  (handle_btn2_win state_row_win 0 2 (by decide) (by decide) (by decide) (by decide)
    (by decide)).1

/-- C3. Win is evaluated before tie. When the cursor cell is the only EMPTY cell
and writing `current_player` there completes a line, `handle_btn2` takes the win
branch: it pushes `current_player`, sets `is_game_over`, and keeps the board,
which is now full (`is_tie` holds of it); the outcome is not that of a reset. -/
theorem handle_btn2_win_before_tie (g : Game) (i : Fin ROWS) (j : Fin COLS)
    (hm : g.moves < ROWS * COLS)
    (hi : i.val = g.moves / ROWS) (hj : j.val = g.moves % COLS)
    (honly : ∀ r c, g.board r c = EMPTY ↔ (r = i ∧ c = j))
    (hwin : is_win g.current_player (Board.set g.board i j g.current_player) = true) :
    handle_btn2 g =
        some ({ board := Board.set g.board i j g.current_player, moves := g.moves,
                current_player := g.current_player, is_game_over := true },
              [Effect.fifo_push g.current_player]) ∧
      is_tie (Board.set g.board i j g.current_player) = true ∧
      (∀ r c, Board.set g.board i j g.current_player r c ≠ EMPTY) ∧
      (∀ g0 : Game, handle_btn2 g ≠ some (reset_board g0)) := by
  have hempty : g.board i j = EMPTY := (honly i j).mpr ⟨rfl, rfl⟩
  have hp : g.current_player ≠ EMPTY := player_ne_EMPTY_of_win g.board i j _ honly hwin
  have htie := is_tie_set_only_empty g.board i j g.current_player honly hp
  have hrun := handle_btn2_of_empty g i j hm hi hj hempty
  rw [if_pos hwin] at hrun
  refine ⟨hrun, htie, (is_tie_eq_true_iff _).mp htie, ?_⟩
  intro g0 h
  rw [hrun] at h
  have h2 := congrArg (fun o => o.map (fun r => r.1.is_game_over)) h
  simp [reset_board] at h2

theorem handle_btn2_win_before_tie_witness :
    handle_btn2 state_last_cell_win =
        some ({ board := Board.set state_last_cell_win.board 2 2 X, moves := 8,
                current_player := X, is_game_over := true },
              [Effect.fifo_push X]) ∧
      is_tie (Board.set state_last_cell_win.board 2 2 X) = true :=
  have h := handle_btn2_win_before_tie state_last_cell_win 2 2 (by decide) (by decide)
    (by decide) (by intro r c; fin_cases r <;> fin_cases c <;> decide) (by decide)
  ⟨h.1, h.2.1⟩

/-- C4. When the cursor cell is the only EMPTY cell and writing `current_player`
(a player mark, hence not the EMPTY character) there completes no line for
`current_player`, `handle_btn2` resets the game: every cell EMPTY, `moves` 0,
`current_player` X, `is_game_over` false. -/
theorem handle_btn2_tie_resets (g : Game) (i : Fin ROWS) (j : Fin COLS)
    (hm : g.moves < ROWS * COLS)
    (hi : i.val = g.moves / ROWS) (hj : j.val = g.moves % COLS)
    (honly : ∀ r c, g.board r c = EMPTY ↔ (r = i ∧ c = j))
    (hp : g.current_player ≠ EMPTY)
    (hnowin : is_win g.current_player (Board.set g.board i j g.current_player) = false) :
    handle_btn2 g =
      some ({ board := fun _ _ => EMPTY, moves := 0, current_player := X, is_game_over := false },
            [Effect.fifo_push EMPTY]) := by
  have hempty : g.board i j = EMPTY := (honly i j).mpr ⟨rfl, rfl⟩
  have htie := is_tie_set_only_empty g.board i j g.current_player honly hp
  have hrun := handle_btn2_of_empty g i j hm hi hj hempty
  rw [hnowin, if_neg Bool.false_ne_true, if_pos htie] at hrun
  rw [hrun, ← reset_board_fst { g with board := Board.set g.board i j g.current_player }]
  rfl

theorem handle_btn2_tie_resets_witness :
    handle_btn2 state_last_cell_tie =
      some ({ board := fun _ _ => EMPTY, moves := 0, current_player := X, is_game_over := false },
            [Effect.fifo_push EMPTY]) :=
  handle_btn2_tie_resets state_last_cell_tie 2 2 (by decide) (by decide) (by decide)
    (by intro r c; fin_cases r <;> fin_cases c <;> decide) (by decide) (by decide)

/-- C5. When the cursor (index i below 9) addresses the EMPTY cell (i/3, i%3) and,
with `current_player` written there, there is neither a win for `current_player`
nor a full board, `handle_btn2` writes the old `current_player` into that cell,
leaves the other eight cells alone, sets `moves` to 0, toggles `current_player`
(X to O, O to X), leaves `is_game_over` alone and performs no hardware call, so it
pushes nothing. -/
theorem handle_btn2_ordinary_move (g : Game) (i : Fin ROWS) (j : Fin COLS)
    (hm : g.moves < ROWS * COLS)
    (hi : i.val = g.moves / ROWS) (hj : j.val = g.moves % COLS)
    (hempty : g.board i j = EMPTY)
    (hnowin : is_win g.current_player (Board.set g.board i j g.current_player) = false)
    (hnotfull : ∃ r c, Board.set g.board i j g.current_player r c = EMPTY) :
    ∃ g1, handle_btn2 g = some (g1, []) ∧
      g1.board i j = g.current_player ∧
      (∀ r c, ¬(r = i ∧ c = j) → g1.board r c = g.board r c) ∧
      g1.moves = 0 ∧
      g1.current_player = get_new_player g.current_player ∧
      (g.current_player = X → g1.current_player = O) ∧
      (g.current_player = O → g1.current_player = X) ∧
      g1.is_game_over = g.is_game_over := by
  have htie : ¬ is_tie (Board.set g.board i j g.current_player) = true := by
    rw [is_tie_eq_true_iff]
    obtain ⟨r, c, h⟩ := hnotfull
    exact fun hall => hall r c h
  have hrun := handle_btn2_of_empty g i j hm hi hj hempty
  rw [hnowin, if_neg Bool.false_ne_true, if_neg htie] at hrun
  refine ⟨_, hrun, Board.set_same _ _ _ _, fun r c h => Board.set_other _ _ _ _ _ _ h,
    rfl, rfl, ?_, ?_, rfl⟩
  · intro hx
    simp [get_new_player, hx]
  · intro ho
    simp [get_new_player, ho]

theorem handle_btn2_ordinary_move_witness :
    ∃ g1, handle_btn2 state_start = some (g1, []) ∧
      g1.board 0 0 = X ∧
      (∀ r c, ¬(r = 0 ∧ c = 0) → g1.board r c = EMPTY) ∧
      g1.moves = 0 ∧
      g1.current_player = O ∧
      g1.is_game_over = false :=
  have ⟨g1, h, hcell, hrest, hmoves, _, hx, _, hover⟩ :=
    handle_btn2_ordinary_move state_start 0 0 (by decide) (by decide) (by decide) (by decide)
      (by decide) ⟨0, 1, by decide⟩
  ⟨g1, h, hcell, hrest, hmoves, hx rfl, hover⟩

/-- C6. When the cursor (index below 9) addresses a cell that is not EMPTY,
`handle_btn2` returns with the state unchanged and without any hardware call, so
nothing is pushed. -/
theorem handle_btn2_occupied (g : Game) (i : Fin ROWS) (j : Fin COLS)
    (hm : g.moves < ROWS * COLS)
    (hi : i.val = g.moves / ROWS) (hj : j.val = g.moves % COLS)
    (hocc : g.board i j ≠ EMPTY) :
    handle_btn2 g = some (g, []) := by
  have hm3 : g.moves < 3 * 3 := hm
  simp [handle_btn2, is_valid_pos_cursor, hm3, is_empty_pos_cursor g.moves g.board i j hi hj,
    hocc]

theorem handle_btn2_occupied_witness : handle_btn2 state_occupied = some (state_occupied, []) :=
  handle_btn2_occupied state_occupied 0 0 (by decide) (by decide) (by decide) (by decide)

/-- C7. The cursor projects to a position rejected by `is_valid_pos` exactly when
`moves` is 9 or more; in that case `handle_btn2` returns normally (no board access,
in particular none out of bounds) with the state unchanged and without any hardware
call, so nothing is pushed. -/
theorem handle_btn2_invalid (g : Game)
    (hinv : is_valid_pos (get_curr_row g.moves) (get_curr_col g.moves) = false) :
    ROWS * COLS ≤ g.moves ∧ handle_btn2 g = some (g, []) ∧
      (∀ moves : Nat, ROWS * COLS ≤ moves ↔
        is_valid_pos (get_curr_row moves) (get_curr_col moves) = false) := by
  have hiff : ∀ moves : Nat, ROWS * COLS ≤ moves ↔
      is_valid_pos (get_curr_row moves) (get_curr_col moves) = false := by
    intro moves
    rw [is_valid_pos_cursor]
    simp
  refine ⟨(hiff g.moves).mpr hinv, ?_, hiff⟩
  simp [handle_btn2, hinv]

theorem handle_btn2_invalid_witness :
    handle_btn2 state_cursor_out = some (state_cursor_out, []) :=
  (handle_btn2_invalid state_cursor_out (by decide)).2.1

/-! ## Reset -/

/-- C8. Whatever the input state, `reset_board` yields the state with all nine
cells EMPTY, `moves` 0, `current_player` X and `is_game_over` false, and its only
hardware call is one FIFO push of EMPTY; so any two inputs give the same state and
resetting twice gives the same state as resetting once. -/
theorem reset_board_spec (g : Game) :
    (reset_board g).1 =
        { board := fun _ _ => EMPTY, moves := 0, current_player := X, is_game_over := false } ∧
      (∀ r c, (reset_board g).1.board r c = EMPTY) ∧
      (reset_board g).2 = [Effect.fifo_push EMPTY] ∧
      pushes (reset_board g).2 = [EMPTY] ∧
      (∀ g0 : Game, (reset_board g0).1 = (reset_board g).1) ∧
      (reset_board (reset_board g).1).1 = (reset_board g).1 := by
  refine ⟨reset_board_fst g, ?_, rfl, rfl, ?_, ?_⟩
  · intro r c
    rw [reset_board_fst]
  · intro g0
    rw [reset_board_fst, reset_board_fst]
  · rw [reset_board_fst, reset_board_fst]

/-! ## The polling loop -/

/-- C9. An iteration of the polling loop that starts with `is_game_over` true and
in which the reset button is not classified as a valid press ends with `board`,
`moves`, `current_player` and `is_game_over` unchanged, whatever the levels of the
cursor and select buttons; nothing is pushed. -/
theorem main_loop_iter_game_over (m : Main) (p : Pins)
    (hover : m.game.is_game_over = true)
    (hnoreset : (debounce (update_btn_state m.btn3 p.s3).1 p.r3).1 = false) :
    ∃ m1 io, main_loop_iter m p = some (m1, io) ∧
      m1.game = m.game ∧ m1.btn1 = m.btn1 ∧ m1.btn2 = m.btn2 ∧ pushes io = [] := by
  refine ⟨{ m with btn3 := (update_btn_state m.btn3 p.s3).1 },
    (update_btn_state m.btn3 p.s3).2 ++ (debounce (update_btn_state m.btn3 p.s3).1 p.r3).2,
    ?_, rfl, rfl, rfl, ?_⟩
  · simp [main_loop_iter, hover, hnoreset]
  · rw [pushes_append, pushes_debounce, pushes_update_btn_state]
    rfl

theorem main_loop_iter_game_over_witness :
    ∃ m1 io, main_loop_iter main_after_win pins_no_reset = some (m1, io) ∧
      m1.game = main_after_win.game ∧ m1.btn1 = main_after_win.btn1 ∧
      m1.btn2 = main_after_win.btn2 ∧ pushes io = [] :=
  main_loop_iter_game_over main_after_win pins_no_reset (by decide) (by decide)

/-! ## Tie detection -/

/-- C10. `is_tie board` is true exactly when no cell of the board equals EMPTY. -/
theorem is_tie_iff_no_empty (board : Board) :
    is_tie board = true ↔ ¬ ∃ i j, board i j = EMPTY := by
  rw [is_tie_eq_true_iff]
  simp

/-! ## Writing a mark: `update_board` -/

/-- C11. For an index below 9, `update_board p moves board` writes `p` into cell
`(moves / 3, moves % 3)` and leaves the other eight cells as they were, whatever
the cell held before (no emptiness test). It tests no bound either: for an index
of 9 or more the write falls outside the array (`none`). -/
theorem update_board_spec (p moves : Nat) (board : Board) (i : Fin ROWS) (j : Fin COLS)
    (hm : moves < ROWS * COLS)
    (hi : i.val = moves / ROWS) (hj : j.val = moves % COLS) :
    ∃ b, update_board p moves board = some b ∧
      b i j = p ∧
      (∀ r c, ¬(r = i ∧ c = j) → b r c = board r c) ∧
      (∀ m : Nat, ROWS * COLS ≤ m → update_board p m board = none) := by
  have _ : moves < 3 * 3 := hm
  refine ⟨Board.set board i j p, update_board_cursor p moves board i j hi hj,
    Board.set_same _ _ _ _, fun r c h => Board.set_other _ _ _ _ _ _ h, ?_⟩
  intro m h9
  have h3 : ¬ m / 3 < 3 := by
    have h9' : 3 * 3 ≤ m := h9
    omega
  simp [update_board, get_curr_row, h3]

theorem update_board_spec_witness :
    ∃ b, update_board O 0 state_occupied.board = some b ∧
      b 0 0 = O ∧
      (∀ r c, ¬(r = 0 ∧ c = 0) → b r c = state_occupied.board r c) ∧
      (∀ m : Nat, ROWS * COLS ≤ m → update_board O m state_occupied.board = none) :=
  update_board_spec O 0 state_occupied.board 0 0 (by decide) (by decide) (by decide)

/-! ## The cursor: `update_position`, `handle_btn1` and the projections -/

/-- C12. For every unsigned 32-bit index `i`, `update_position` yields `i + 1` when
`i + 1 ≤ 8` and 0 otherwise; in particular 8 goes to 0 and so does `2 ^ 32 - 1`,
where `i + 1` wraps to 0; the result is always below 9. -/
theorem update_position_spec (i : Nat) (hi : i < 2 ^ 32) :
    update_position i = (if i + 1 ≤ 8 then i + 1 else 0) ∧
      update_position 8 = 0 ∧
      update_position (2 ^ 32 - 1) = 0 ∧
      (9 ≤ i → update_position i = 0) ∧
      update_position i < ROWS * COLS := by
  have h := update_position_eq i hi
  refine ⟨h, by decide, by decide, ?_, ?_⟩
  · intro h9
    rw [h, if_neg (by omega)]
  · rw [h]
    show (if i + 1 ≤ 8 then i + 1 else 0) < 3 * 3
    split_ifs <;> omega

theorem update_position_spec_witness :
    update_position 4 = (if 4 + 1 ≤ 8 then 4 + 1 else 0) ∧
      update_position 8 = 0 ∧
      update_position (2 ^ 32 - 1) = 0 ∧
      (9 ≤ 4 → update_position 4 = 0) ∧
      update_position 4 < ROWS * COLS :=
  update_position_spec 4 (by decide)

/-- C13. From a start index `i` below 9, `k` presses of the cursor button lead to
index `(i + k) % 9`; nine presses lead back to `i`, and the positions shown before
each of those nine presses cover every cell `(r, c)` of the board exactly once. -/
theorem handle_btn1_cycle (i : Nat) (hi : i < ROWS * COLS) :
    (∀ k : Nat, Nat.iterate handle_btn1 k i = (i + k) % 9) ∧
      Nat.iterate handle_btn1 9 i = i ∧
      (∀ (r : Fin ROWS) (c : Fin COLS), ∃! k : Nat, k < 9 ∧
        get_curr_row (Nat.iterate handle_btn1 k i) = r.val ∧
        get_curr_col (Nat.iterate handle_btn1 k i) = c.val) := by
  have hi9 : i < 9 := hi
  have hit := iterate_handle_btn1 i hi9
  refine ⟨hit, ?_, ?_⟩
  · rw [hit]
    omega
  · intro r c
    have hr : r.val < 3 := r.isLt
    have hc : c.val < 3 := c.isLt
    refine ⟨(3 * r.val + c.val + 9 - i) % 9, ⟨by omega, ?_, ?_⟩, ?_⟩
    · rw [hit]
      show (i + (3 * r.val + c.val + 9 - i) % 9) % 9 / 3 = r.val
      omega
    · rw [hit]
      show (i + (3 * r.val + c.val + 9 - i) % 9) % 9 % 3 = c.val
      omega
    · rintro k ⟨hk, hrow, hcol⟩
      rw [hit] at hrow hcol
      have hrow3 : (i + k) % 9 / 3 = r.val := hrow
      have hcol3 : (i + k) % 9 % 3 = c.val := hcol
      omega

theorem handle_btn1_cycle_witness :
    (∀ k : Nat, Nat.iterate handle_btn1 k 7 = (7 + k) % 9) ∧
      Nat.iterate handle_btn1 9 7 = 7 ∧
      (∀ (r : Fin ROWS) (c : Fin COLS), ∃! k : Nat, k < 9 ∧
        get_curr_row (Nat.iterate handle_btn1 k 7) = r.val ∧
        get_curr_col (Nat.iterate handle_btn1 k 7) = c.val) :=
  handle_btn1_cycle 7 (by decide)

/-- C14. For an index `i` below 9, `get_curr_row i = i / 3` and
`get_curr_col i = i % 3`; both are below 3, so `is_valid_pos` accepts them;
`3 * row + col = i`, so two indices below 9 with the same cell are equal. -/
theorem cursor_projection (i : Nat) (hi : i < ROWS * COLS) :
    get_curr_row i = i / 3 ∧ get_curr_col i = i % 3 ∧
      get_curr_row i < ROWS ∧ get_curr_col i < COLS ∧
      is_valid_pos (get_curr_row i) (get_curr_col i) = true ∧
      3 * get_curr_row i + get_curr_col i = i ∧
      (∀ k : Nat, k < ROWS * COLS → get_curr_row k = get_curr_row i →
        get_curr_col k = get_curr_col i → k = i) := by
  have hi9 : i < 3 * 3 := hi
  refine ⟨rfl, rfl, ?_, ?_, ?_, ?_, ?_⟩
  · show i / 3 < 3
    omega
  · show i % 3 < 3
    omega
  · rw [is_valid_pos_cursor]
    exact decide_eq_true hi
  · show 3 * (i / 3) + i % 3 = i
    omega
  · intro k _ hrow hcol
    have hrow3 : k / 3 = i / 3 := hrow
    have hcol3 : k % 3 = i % 3 := hcol
    omega

theorem cursor_projection_witness :
    get_curr_row 5 = 1 ∧ get_curr_col 5 = 2 ∧
      is_valid_pos (get_curr_row 5) (get_curr_col 5) = true :=
  have h := cursor_projection 5 (by decide)
  ⟨h.1, h.2.1, h.2.2.2.2.1⟩

/-! ## Debounce -/

/-- C15. `debounce` returns true exactly when `has_changed prev_state curr_state`
is true and `is_stable but_pin curr_state` (whose pin read returns `r`) is true,
that is, exactly when `prev_state` is low, `curr_state` is high and `r` is high. -/
theorem debounce_iff (btn : BtnState) (r : Bool) :
    ((debounce btn r).1 = true ↔
        has_changed btn.prev_state btn.curr_state = true ∧
          (is_stable btn.but_pin btn.curr_state r).1 = true) ∧
      ((debounce btn r).1 = true ↔
        btn.prev_state = false ∧ btn.curr_state = true ∧ r = true) := by
  obtain ⟨pin, pv, cv⟩ := btn
  cases pv <;> cases cv <;> cases r <;> simp [debounce, has_changed, is_stable]

/-- C16. `has_changed` is true for (low, high) and false for (high, high),
(high, low) and (low, low). -/
theorem has_changed_table :
    has_changed false true = true ∧ has_changed true true = false ∧
      has_changed true false = false ∧ has_changed false false = false ∧
      (∀ prev curr : Bool, has_changed prev curr = true ↔ prev = false ∧ curr = true) := by
  refine ⟨rfl, rfl, rfl, rfl, ?_⟩
  intro prev curr
  cases prev <;> cases curr <;> simp [has_changed]

/-- C17. `is_stable` returns true exactly when the level `p` passed in is high and
the level `r` read from the pin after the delay is high. -/
theorem is_stable_iff (button : Nat) (p r : Bool) :
    ((is_stable button p r).1 = true ↔ p = true ∧ r = true) ∧
      (is_stable button true false).1 = false ∧
      (is_stable button false true).1 = false ∧
      (is_stable button false false).1 = false := by
  refine ⟨?_, rfl, rfl, rfl⟩
  cases p <;> cases r <;> simp [is_stable]

/-- C18. `update_btn_state` sets `prev_state` to the old `curr_state`, sets
`curr_state` to the sampled level `s` and leaves `but_pin` alone. -/
theorem update_btn_state_spec (btn : BtnState) (s : Bool) :
    (update_btn_state btn s).1 =
      { but_pin := btn.but_pin, prev_state := btn.curr_state, curr_state := s } := by
  obtain ⟨pin, pv, cv⟩ := btn
  cases cv <;> rfl

/-- C19. With `prev_state` high or `curr_state` low, `debounce` returns false and
makes no hardware call (no delay, no pin read); with `prev_state` low and
`curr_state` high it makes exactly the calls `sleep_us(DEBOUNCE_DELAY)` and one
`gpio_get` of the button pin. -/
theorem debounce_effects (btn : BtnState) (r : Bool) :
    ((btn.prev_state = true ∨ btn.curr_state = false) → debounce btn r = (false, [])) ∧
      ((btn.prev_state = false ∧ btn.curr_state = true) →
        (debounce btn r).2 =
          [Effect.sleep_us DEBOUNCE_DELAY, Effect.gpio_get btn.but_pin r]) := by
  obtain ⟨pin, pv, cv⟩ := btn
  cases pv <;> cases cv <;> cases r <;> simp [debounce, has_changed, is_stable]

theorem debounce_effects_witness :
    debounce { but_pin := BTN3, prev_state := true, curr_state := true } true = (false, []) ∧
      (debounce { but_pin := BTN3, prev_state := false, curr_state := true } true).2 =
        [Effect.sleep_us DEBOUNCE_DELAY, Effect.gpio_get BTN3 true] :=
  ⟨(debounce_effects { but_pin := BTN3, prev_state := true, curr_state := true } true).1
      (Or.inl rfl),
   (debounce_effects { but_pin := BTN3, prev_state := false, curr_state := true } true).2
      ⟨rfl, rfl⟩⟩

/-! ## Reachable states -/

/-- C20. The program reaches a state after every sequence of loop iterations,
whatever the button levels, and in each such state every board cell is EMPTY, X
or O and `current_player` is X or O. -/
theorem reachable_cells_and_player (ps : List Pins) :
    ∃ m io, main_run ps = some (m, io) ∧
      (∀ r c, m.game.board r c = EMPTY ∨ m.game.board r c = X ∨ m.game.board r c = O) ∧
      (m.game.current_player = X ∨ m.game.current_player = O) := by
  obtain ⟨⟨m, io⟩, hr, hv⟩ := main_run_valid ps
  exact ⟨m, io, hr, hv.1, hv.2.1⟩

/-! ## Button events and reachable states -/

/-- C21. After any sequence of cursor, select and reset presses served from the
initial state, and after any sequence of loop iterations of `main`, `moves` is
below 9. In such a state `is_valid_pos` accepts the cursor position, so the
invalid-selection branch of `handle_btn2` is not taken, and the board read of
`is_empty_pos`, the board write of `update_board` and the whole of `handle_btn2`
stay inside the array (their result is not `none`). -/
theorem moves_in_bounds (es : List Event) (ps : List Pins) :
    (∃ g io, run_events es main_init.1.game = some (g, io) ∧
      g.moves < ROWS * COLS ∧
      is_valid_pos (get_curr_row g.moves) (get_curr_col g.moves) = true ∧
      (∃ e, is_empty_pos (get_curr_row g.moves) (get_curr_col g.moves) g.board = some e) ∧
      (∀ p, ∃ b, update_board p g.moves g.board = some b) ∧
      (∃ r, handle_btn2 g = some r)) ∧
    (∃ m io, main_run ps = some (m, io) ∧ m.game.moves < ROWS * COLS) := by
  constructor
  · obtain ⟨⟨g, io⟩, hr, hv⟩ := run_events_preserves Game.valid Game.valid_reset_board
      (fun g hg _ => Game.valid_handle_btn1 g hg) (fun g hg _ => handle_btn2_valid g hg)
      es main_init.1.game (Game.valid_reset_board _)
    have hm : g.moves < 3 * 3 := hv.2.2
    have hi : g.moves / 3 < 3 := by omega
    have hj : g.moves % 3 < 3 := by omega
    refine ⟨g, io, hr, hv.2.2, ?_, ?_, ?_, ?_⟩
    · rw [is_valid_pos_cursor]
      exact decide_eq_true hv.2.2
    · exact ⟨_, is_empty_pos_cursor g.moves g.board ⟨g.moves / 3, hi⟩ ⟨g.moves % 3, hj⟩ rfl rfl⟩
    · exact fun p =>
        ⟨_, update_board_cursor p g.moves g.board ⟨g.moves / 3, hi⟩ ⟨g.moves % 3, hj⟩ rfl rfl⟩
    · obtain ⟨r, hr2, _⟩ := handle_btn2_valid g hv
      exact ⟨r, hr2⟩
  · obtain ⟨⟨m, io⟩, hr, hv⟩ := main_run_valid ps
    exact ⟨m, io, hr, hv.2.2⟩

/-- C22. In every state reached by loop iterations of `main`, `is_game_over` is
true exactly when the board holds a complete line of X or of O. The flag is false
in the state in which `main` enters its loop and after every `reset_board`,
the one `handle_btn2` calls on a tie included. -/
theorem game_over_iff_line (ps : List Pins) :
    (∃ m io, main_run ps = some (m, io) ∧
      (m.game.is_game_over = true ↔
        (is_win X m.game.board = true ∨ is_win O m.game.board = true))) ∧
    main_init.1.game.is_game_over = false ∧
    (∀ g : Game, (reset_board g).1.is_game_over = false) ∧
    (∀ (g : Game) (i : Fin ROWS) (j : Fin COLS), g.moves < ROWS * COLS →
      i.val = g.moves / ROWS → j.val = g.moves % COLS → g.board i j = EMPTY →
      is_win g.current_player (Board.set g.board i j g.current_player) = false →
      is_tie (Board.set g.board i j g.current_player) = true →
      ∃ r, handle_btn2 g = some r ∧ r.1.is_game_over = false) := by
  refine ⟨?_, rfl, fun _ => rfl, ?_⟩
  · obtain ⟨⟨m, io⟩, hr, hv, hoff, hon, _, _⟩ := main_run_inv ps
    refine ⟨m, io, hr, ?_, ?_⟩
    · intro hover
      have hw := (hon hover).1
      rcases hv.2.1 with hp | hp
      · exact Or.inl (hp ▸ hw)
      · exact Or.inr (hp ▸ hw)
    · intro hline
      by_contra hover
      have hoff' := hoff (by simpa using hover)
      rcases hline with h | h
      · rw [hoff'.1] at h
        exact absurd h (by decide)
      · rw [hoff'.2] at h
        exact absurd h (by decide)
  · intro g i j hm hi hj hempty hnowin htie
    rw [handle_btn2_of_empty g i j hm hi hj hempty, hnowin, if_neg Bool.false_ne_true,
      if_pos htie]
    exact ⟨_, rfl, rfl⟩

/-- C23. From the reset state the presses select; cursor three times, select; cursor,
select; cursor four times, select; cursor twice, select place X on (0,0), O on
(1,0), X on (0,1), O on (1,1) and X on (0,2), in this order, one mark by each
select. After the last select the board is X X X / O O - / - - -, `is_win X` holds
of it, `is_game_over` is true and the presses have pushed exactly the value X. -/
theorem scenario_win_result :
    ∃ (g1 g2 g3 g4 g5 : Game) (io : List Effect),
      run_events (scenario_win.take 1) main_init.1.game = some (g1, []) ∧
      g1.board 0 0 = X ∧
      run_events (scenario_win.take 5) main_init.1.game = some (g2, []) ∧
      g2.board 1 0 = O ∧
      run_events (scenario_win.take 7) main_init.1.game = some (g3, []) ∧
      g3.board 0 1 = X ∧
      run_events (scenario_win.take 12) main_init.1.game = some (g4, []) ∧
      g4.board 1 1 = O ∧
      run_events scenario_win main_init.1.game = some (g5, io) ∧
      (∀ r c, g5.board r c =
        (![![X, X, X], ![O, O, EMPTY], ![EMPTY, EMPTY, EMPTY]] : Board) r c) ∧
      is_win X g5.board = true ∧ g5.is_game_over = true ∧ pushes io = [X] := by
  have h0 : main_init.1.game = state_start := reset_board_fst _
  rw [h0]
  have e1 : run_events [Event.select] state_start =
      some ({ board := Board.set state_start.board 0 0 X, moves := 0, current_player := O,
              is_game_over := false }, []) := rfl
  have e2 : run_events [Event.cursor, Event.cursor, Event.cursor, Event.select]
      { board := Board.set state_start.board 0 0 X, moves := 0, current_player := O,
        is_game_over := false } =
      some ({ board := Board.set (Board.set state_start.board 0 0 X) 1 0 O, moves := 0,
              current_player := X, is_game_over := false }, []) := rfl
  have e3 : run_events [Event.cursor, Event.select]
      { board := Board.set (Board.set state_start.board 0 0 X) 1 0 O, moves := 0,
        current_player := X, is_game_over := false } =
      some ({ board := Board.set (Board.set (Board.set state_start.board 0 0 X) 1 0 O) 0 1 X,
              moves := 0, current_player := O, is_game_over := false }, []) := rfl
  have e4 : run_events [Event.cursor, Event.cursor, Event.cursor, Event.cursor, Event.select]
      { board := Board.set (Board.set (Board.set state_start.board 0 0 X) 1 0 O) 0 1 X,
        moves := 0, current_player := O, is_game_over := false } =
      some ({ board := Board.set (Board.set (Board.set (Board.set state_start.board 0 0 X)
                1 0 O) 0 1 X) 1 1 O,
              moves := 0, current_player := X, is_game_over := false }, []) := rfl
  have e5 : run_events [Event.cursor, Event.cursor, Event.select]
      { board := Board.set (Board.set (Board.set (Board.set state_start.board 0 0 X)
          1 0 O) 0 1 X) 1 1 O,
        moves := 0, current_player := X, is_game_over := false } =
      some ({ board := Board.set (Board.set (Board.set (Board.set (Board.set state_start.board
                0 0 X) 1 0 O) 0 1 X) 1 1 O) 0 2 X,
              moves := 2, current_player := X, is_game_over := true },
            [Effect.fifo_push X]) := rfl
  have p2 := run_events_append [Event.select]
    [Event.cursor, Event.cursor, Event.cursor, Event.select] _ _ _ e1
  rw [e2] at p2
  have p3 := run_events_append _ [Event.cursor, Event.select] _ _ _ p2
  rw [e3] at p3
  have p4 := run_events_append _
    [Event.cursor, Event.cursor, Event.cursor, Event.cursor, Event.select] _ _ _ p3
  rw [e4] at p4
  have p5 := run_events_append _ [Event.cursor, Event.cursor, Event.select] _ _ _ p4
  rw [e5] at p5
  refine ⟨_, _, _, _, _, _, e1, rfl, p2, rfl, p3, rfl, p4, rfl, p5, ?_, by decide, rfl, rfl⟩
  intro r c
  fin_cases r <;> fin_cases c <;> rfl

/-- C24. `get_new_player` maps X to O and O to X, so applying it twice to X or O
gives the player back; it never returns its argument; on a character other than X
and O it returns X, so its result is always X or O. -/
theorem get_new_player_spec :
    get_new_player X = O ∧ get_new_player O = X ∧
    (∀ p, p = X ∨ p = O → get_new_player (get_new_player p) = p) ∧
    (∀ p, get_new_player p ≠ p) ∧
    (∀ p, p ≠ X → p ≠ O → get_new_player p = X) ∧
    (∀ p, get_new_player p = X ∨ get_new_player p = O) := by
  refine ⟨rfl, rfl, ?_, get_new_player_ne, ?_, get_new_player_X_or_O⟩
  · rintro p (rfl | rfl) <;> rfl
  · intro p hx _
    simp [get_new_player, hx]

/-- C29. In every state reached by loop iterations of `main`, the number of X cells
is the number of O cells or one more; while `is_game_over` is false,
`current_player` is X exactly when the two numbers are equal and O exactly when X
has one more. -/
theorem turn_parity (ps : List Pins) :
    ∃ m io, main_run ps = some (m, io) ∧
      (Board.count m.game.board X = Board.count m.game.board O ∨
        Board.count m.game.board X = Board.count m.game.board O + 1) ∧
      (m.game.is_game_over = false →
        (m.game.current_player = X ↔
          Board.count m.game.board X = Board.count m.game.board O) ∧
        (m.game.current_player = O ↔
          Board.count m.game.board X = Board.count m.game.board O + 1)) := by
  obtain ⟨⟨m, io⟩, hr, _, _, _, hpar, hturn⟩ := main_run_inv ps
  exact ⟨m, io, hr, hpar, hturn⟩

/-- C30. In every state reached by loop iterations of `main`, `is_win X` and
`is_win O` do not both hold of the board; while `is_game_over` is false neither
holds, and once it is true `is_win current_player` holds, so `current_player` is
the winner. -/
theorem winner_is_current_player (ps : List Pins) :
    ∃ m io, main_run ps = some (m, io) ∧
      ¬(is_win X m.game.board = true ∧ is_win O m.game.board = true) ∧
      (m.game.is_game_over = false →
        is_win X m.game.board = false ∧ is_win O m.game.board = false) ∧
      (m.game.is_game_over = true → is_win m.game.current_player m.game.board = true) := by
  obtain ⟨⟨m, io⟩, hr, hv, hoff, hon, _, _⟩ := main_run_inv ps
  refine ⟨m, io, hr, ?_, hoff, fun h => (hon h).1⟩
  rintro ⟨hx, ho⟩
  cases hover : m.game.is_game_over
  · rw [(hoff hover).1] at hx
    exact absurd hx (by decide)
  · have hother := (hon hover).2
    rcases hv.2.1 with hp | hp
    · rw [hp] at hother
      rw [show get_new_player X = O from rfl, ho] at hother
      exact absurd hother (by decide)
    · rw [hp] at hother
      rw [show get_new_player O = X from rfl, hx] at hother
      exact absurd hother (by decide)

/-! ## The indicator loop -/

/-- C25. In one iteration of the loop of `flash_winner_led` the retained `winner`
becomes the popped value when the FIFO holds one and keeps its value otherwise;
the pin blinked in the iteration is the one chosen from the retained value. Hence
an iteration that finds the FIFO empty after a value `v` was received repeats the
iteration that received `v`, state and blink alike, however many such iterations
follow. -/
theorem flash_winner_retained (s : Flash) (v : Nat) :
    (flash_winner_led_iter s (some v)).1.winner = v ∧
    (flash_winner_led_iter s none).1.winner = s.winner ∧
    (∀ fifo : Option Nat,
      (flash_winner_led_iter s fifo).1.led_pin =
          (if (flash_winner_led_iter s fifo).1.winner % 256 = X then LED1
           else if (flash_winner_led_iter s fifo).1.winner % 256 = O then LED2
           else ONBOARD_LED) ∧
        (flash_winner_led_iter s fifo).2 =
          [Effect.gpio_put (flash_winner_led_iter s fifo).1.led_pin HIGH,
           Effect.sleep_ms BLINK_LED_DELAY,
           Effect.gpio_put (flash_winner_led_iter s fifo).1.led_pin LOW,
           Effect.sleep_ms BLINK_LED_DELAY]) ∧
    flash_winner_led_iter (flash_winner_led_iter s (some v)).1 none =
      flash_winner_led_iter s (some v) ∧
    (∀ k : Nat,
      Nat.iterate (fun t => (flash_winner_led_iter t none).1) k
          (flash_winner_led_iter s (some v)).1 =
        (flash_winner_led_iter s (some v)).1) := by
  refine ⟨rfl, rfl, ?_, rfl, ?_⟩
  · intro fifo
    refine ⟨?_, rfl⟩
    simp only [flash_winner_led_iter, beq_iff_eq]
  · intro k
    induction k with
    | zero => rfl
    | succ k ih => rw [Function.iterate_succ_apply', ih]; rfl

/-- C26. For every value `w` popped from the FIFO, the iteration drives LED1
(pin 15) when the low byte of `w` is the character X, LED2 (pin 14) when it is O
and the on-board LED (pin 25) otherwise; the three pins are distinct, and the
values X, O and EMPTY pushed by the game core are their own low byte, so they
select pins 15, 14 and 25. -/
theorem flash_led_mapping (s : Flash) (w : Nat) :
    (w % 256 = X → (flash_winner_led_iter s (some w)).1.led_pin = 15) ∧
    (w % 256 = O → (flash_winner_led_iter s (some w)).1.led_pin = 14) ∧
    (w % 256 ≠ X → w % 256 ≠ O → (flash_winner_led_iter s (some w)).1.led_pin = 25) ∧
    (flash_winner_led_iter s (some w)).2 =
      [Effect.gpio_put (flash_winner_led_iter s (some w)).1.led_pin HIGH,
       Effect.sleep_ms BLINK_LED_DELAY,
       Effect.gpio_put (flash_winner_led_iter s (some w)).1.led_pin LOW,
       Effect.sleep_ms BLINK_LED_DELAY] ∧
    LED1 ≠ LED2 ∧ LED1 ≠ ONBOARD_LED ∧ LED2 ≠ ONBOARD_LED ∧
    X % 256 = X ∧ O % 256 = O ∧ EMPTY % 256 = EMPTY ∧
    (flash_winner_led_iter s (some X)).1.led_pin = LED1 ∧
    (flash_winner_led_iter s (some O)).1.led_pin = LED2 ∧
    (flash_winner_led_iter s (some EMPTY)).1.led_pin = ONBOARD_LED := by
  refine ⟨?_, ?_, ?_, rfl, by decide, by decide, by decide, rfl, rfl, rfl, rfl, rfl, rfl⟩
  · intro h
    simp [flash_winner_led_iter, h]
  · intro h
    simp [flash_winner_led_iter, h]
  · intro hx ho
    simp [flash_winner_led_iter, hx, ho]

theorem flash_led_mapping_witness :
    (flash_winner_led_iter flash_start (some (256 + 88))).1.led_pin = 15 ∧
    (flash_winner_led_iter flash_start (some 79)).1.led_pin = 14 ∧
    (flash_winner_led_iter flash_start (some 0)).1.led_pin = 25 :=
  ⟨(flash_led_mapping flash_start (256 + 88)).1 (by decide),
   (flash_led_mapping flash_start 79).2.1 (by decide),
   (flash_led_mapping flash_start 0).2.2.1 (by decide) (by decide)⟩

/-! ## The C and the C++ implementation -/

/-- C28. Each of the functions `get_curr_row`, `get_curr_col`, `get_next_row`,
`get_next_col`, `is_valid_pos`, `update_position`, `update_board`, `is_win`,
`is_tie`, `get_new_player`, `reset_board` and `handle_btn2` of game.cpp returns, on
every input, the result, the final state and the hardware calls (hence the FIFO
pushes) of its namesake in game.c; in particular `is_valid_pos` without the tests
`row >= 0` and `col >= 0` equals the one with them. -/
theorem cpp_equals_c :
    (∀ moves, Cpp.get_curr_row moves = get_curr_row moves) ∧
    (∀ moves, Cpp.get_curr_col moves = get_curr_col moves) ∧
    (∀ moves, Cpp.get_next_row moves = get_next_row moves) ∧
    (∀ moves, Cpp.get_next_col moves = get_next_col moves) ∧
    (∀ row col, Cpp.is_valid_pos row col = is_valid_pos row col) ∧
    (∀ moves, Cpp.update_position moves = update_position moves) ∧
    (∀ p moves board, Cpp.update_board p moves board = update_board p moves board) ∧
    (∀ p board, Cpp.is_win p board = is_win p board) ∧
    (∀ board, Cpp.is_tie board = is_tie board) ∧
    (∀ p, Cpp.get_new_player p = get_new_player p) ∧
    (∀ g, Cpp.reset_board g = reset_board g) ∧
    (∀ g, Cpp.handle_btn2 g = handle_btn2 g) ∧
    (∀ g, (Cpp.handle_btn2 g).map (fun r => pushes r.2) =
      (handle_btn2 g).map (fun r => pushes r.2)) := by
  have hb2 : ∀ g, Cpp.handle_btn2 g = handle_btn2 g := by
    intro g
    simp only [Cpp.handle_btn2, handle_btn2, is_valid_pos_cpp_eq]
    rfl
  refine ⟨fun _ => rfl, fun _ => rfl, fun _ => rfl, fun _ => rfl, is_valid_pos_cpp_eq, ?_,
    fun _ _ _ => rfl, fun _ _ => rfl, fun _ => rfl, fun _ => rfl, fun _ => rfl, hb2, ?_⟩
  · intro moves
    simp only [Cpp.update_position, update_position, is_valid_pos_cpp_eq]
    rfl
  · intro g
    rw [hb2]

/-! ## A held button -/

/-- C33. When the level sampled by `update_btn_state` in one tick is high,
`debounce` in the next tick of the same button returns false, whatever the two
levels read in that tick; so a tick reports a valid press only if the sample of the
tick before was low. -/
theorem held_button_reported_once (btn : BtnState) (s2 r2 : Bool) :
    (debounce (update_btn_state (update_btn_state btn true).1 s2).1 r2).1 = false ∧
    (∀ s1 : Bool,
      (debounce (update_btn_state (update_btn_state btn s1).1 s2).1 r2).1 = true →
        s1 = false) := by
  obtain ⟨pin, pv, cv⟩ := btn
  refine ⟨?_, ?_⟩
  · cases cv <;> cases s2 <;> cases r2 <;> rfl
  · intro s1
    cases s1 <;> cases cv <;> cases s2 <;> cases r2 <;> simp [debounce, update_btn_state,
      has_changed, is_stable]

/-! ## Lines of EMPTY cells -/

/-- C34. `is_win` accepts any character as player: `is_win EMPTY` is true of the
board left by `reset_board`, and of every board with a row, a column or a diagonal
of three EMPTY cells. -/
theorem is_win_EMPTY_line :
    (∀ g : Game, is_win EMPTY (reset_board g).1.board = true) ∧
    (∀ board : Board,
      ((∃ i : Fin ROWS, board i 0 = EMPTY ∧ board i 1 = EMPTY ∧ board i 2 = EMPTY) ∨
       (∃ j : Fin COLS, board 0 j = EMPTY ∧ board 1 j = EMPTY ∧ board 2 j = EMPTY) ∨
       (board 0 0 = EMPTY ∧ board 1 1 = EMPTY ∧ board 2 2 = EMPTY) ∨
       (board 0 2 = EMPTY ∧ board 1 1 = EMPTY ∧ board 2 0 = EMPTY)) →
      is_win EMPTY board = true) := by
  refine ⟨?_, fun board h => (is_win_eq_true_iff EMPTY board).mpr h⟩
  intro g
  rw [reset_board_fst]
  decide

/-! ## The player LEDs -/

/-- C35, as the code has it. Called with a character that is neither X nor O,
`update_player_led` sets both LED1 and LED2 to LOW. -/
theorem update_player_led_other (p : Nat) (hx : p ≠ X) (ho : p ≠ O) :
    update_player_led p = [Effect.gpio_put LED1 LOW, Effect.gpio_put LED2 LOW] := by
  simp [update_player_led, hx, ho]

theorem update_player_led_other_witness :
    update_player_led 90 = [Effect.gpio_put LED1 LOW, Effect.gpio_put LED2 LOW] :=
  update_player_led_other 90 (by decide) (by decide)

/-- The character EMPTY is neither X nor O, and `update_player_led EMPTY` puts LOW
on both LEDs and HIGH on neither. -/
theorem update_player_led_not_high :
    EMPTY ≠ X ∧ EMPTY ≠ O ∧
    update_player_led EMPTY = [Effect.gpio_put LED1 LOW, Effect.gpio_put LED2 LOW] ∧
    Effect.gpio_put LED1 HIGH ∉ update_player_led EMPTY ∧
    Effect.gpio_put LED2 HIGH ∉ update_player_led EMPTY := by
  decide

/-! ## A win is not followed by a reset -/

/-- C36, as the code has it. When `handle_btn2` commits a move with which
`current_player` has won, it does not reset the game: the board keeps its marks
and the new one, `moves` and `current_player` stay as they were, `is_game_over`
becomes true and `current_player` is pushed; the outcome is not that of any
`reset_board`. -/
theorem handle_btn2_win_keeps_game (g : Game) (i : Fin ROWS) (j : Fin COLS)
    (hm : g.moves < ROWS * COLS)
    (hi : i.val = g.moves / ROWS) (hj : j.val = g.moves % COLS)
    (hempty : g.board i j = EMPTY)
    (hwin : is_win g.current_player (Board.set g.board i j g.current_player) = true) :
    ∃ g1, handle_btn2 g = some (g1, [Effect.fifo_push g.current_player]) ∧
      g1.board i j = g.current_player ∧
      (∀ r c, ¬(r = i ∧ c = j) → g1.board r c = g.board r c) ∧
      g1.moves = g.moves ∧ g1.current_player = g.current_player ∧
      g1.is_game_over = true ∧
      (∀ g0 : Game, handle_btn2 g ≠ some (reset_board g0)) := by
  have hrun := handle_btn2_of_empty g i j hm hi hj hempty
  rw [if_pos hwin] at hrun
  refine ⟨_, hrun, Board.set_same _ _ _ _, fun r c h => Board.set_other _ _ _ _ _ _ h,
    rfl, rfl, rfl, ?_⟩
  intro g0 h
  rw [hrun] at h
  have h2 := congrArg (fun o => o.map (fun r => r.1.is_game_over)) h
  simp [reset_board] at h2

theorem handle_btn2_win_keeps_game_witness :
    ∃ g1, handle_btn2 state_o_wins = some (g1, [Effect.fifo_push O]) ∧
      g1.board 0 2 = O ∧
      (∀ r c, ¬(r = 0 ∧ c = 2) → g1.board r c = state_o_wins.board r c) ∧
      g1.moves = 2 ∧ g1.current_player = O ∧
      g1.is_game_over = true ∧
      (∀ g0 : Game, handle_btn2 state_o_wins ≠ some (reset_board g0)) :=
  handle_btn2_win_keeps_game state_o_wins 0 2 (by decide) (by decide) (by decide) (by decide)
    (by decide)

/-- In `state_o_wins` the move of O on (0,2) wins, and after `handle_btn2` the
board is not cleared, `moves` is not 0 and `current_player` is not X. -/
theorem handle_btn2_win_not_reset :
    is_win O (Board.set state_o_wins.board 0 2 O) = true ∧
    (handle_btn2 state_o_wins).map
        (fun r => (r.1.board 0 0, r.1.board 0 2, r.1.board 1 0, r.1.moves, r.1.current_player,
          r.1.is_game_over)) =
      some (O, O, X, 2, O, true) ∧
    O ≠ EMPTY ∧ X ≠ EMPTY ∧ (2 : Nat) ≠ 0 ∧ O ≠ X := by
  decide

/-! ## The next column -/

/-- C37, as the code has it. `get_next_col 5` is 0, the remainder of 5 + 1 divided
by 3; the value 2 is what `get_curr_col 5` returns. -/
theorem get_next_col_five :
    get_next_col 5 = 0 ∧ get_next_col 5 = (5 + 1) % 3 ∧ get_curr_col 5 = 2 := by
  decide

/-- The value of `get_next_col 5` is not 2. -/
theorem get_next_col_five_ne_two : get_next_col 5 ≠ 2 := by
  decide

/-! ## FIFO pushes and EMPTY cells -/

/-- C31. Every call of `handle_btn2` returns and pushes at most one value on the
FIFO: nothing when the cursor is off the board (invalid selection) or on an
occupied cell; on an EMPTY cell exactly `current_player` when the move wins,
exactly EMPTY when it does not win and fills the board (the tie branch, through
`reset_board`), and nothing otherwise (the ordinary move). -/
theorem handle_btn2_pushes (g : Game) :
    ∃ g1 io, handle_btn2 g = some (g1, io) ∧ (pushes io).length ≤ 1 ∧
      (ROWS * COLS ≤ g.moves → pushes io = []) ∧
      (∀ (i : Fin ROWS) (j : Fin COLS), i.val = g.moves / ROWS → j.val = g.moves % COLS →
        (g.board i j ≠ EMPTY → pushes io = []) ∧
        (g.board i j = EMPTY →
          (is_win g.current_player (Board.set g.board i j g.current_player) = true →
            pushes io = [g.current_player]) ∧
          (is_win g.current_player (Board.set g.board i j g.current_player) = false →
            is_tie (Board.set g.board i j g.current_player) = true →
            pushes io = [EMPTY]) ∧
          (is_win g.current_player (Board.set g.board i j g.current_player) = false →
            is_tie (Board.set g.board i j g.current_player) = false →
            pushes io = []))) := by
  by_cases hm : g.moves < ROWS * COLS
  · have hm3 : g.moves < 3 * 3 := hm
    have hi : g.moves / 3 < 3 := by omega
    have hj : g.moves % 3 < 3 := by omega
    have hcell : ∀ (i : Fin ROWS) (j : Fin COLS), i.val = g.moves / ROWS →
        j.val = g.moves % COLS → i = ⟨g.moves / 3, hi⟩ ∧ j = ⟨g.moves % 3, hj⟩ :=
      fun i j h1 h2 => ⟨Fin.ext h1, Fin.ext h2⟩
    by_cases hempty : g.board ⟨g.moves / 3, hi⟩ ⟨g.moves % 3, hj⟩ = EMPTY
    · have hrun := handle_btn2_of_empty g ⟨g.moves / 3, hi⟩ ⟨g.moves % 3, hj⟩ hm rfl rfl hempty
      split_ifs at hrun with hw ht
      · refine ⟨_, _, hrun, by simp [pushes], fun h9 => absurd hm (Nat.not_lt.mpr h9), ?_⟩
        intro i j h1 h2
        obtain ⟨rfl, rfl⟩ := hcell i j h1 h2
        exact ⟨fun hne => absurd hempty hne, fun _ => ⟨fun _ => rfl,
          fun hf => by rw [hf] at hw; exact absurd hw (by decide),
          fun hf => by rw [hf] at hw; exact absurd hw (by decide)⟩⟩
      · refine ⟨_, _, hrun, by simp [reset_board, pushes],
          fun h9 => absurd hm (Nat.not_lt.mpr h9), ?_⟩
        intro i j h1 h2
        obtain ⟨rfl, rfl⟩ := hcell i j h1 h2
        exact ⟨fun hne => absurd hempty hne, fun _ => ⟨fun hwt => absurd hwt hw,
          fun _ _ => rfl,
          fun _ hf => by rw [hf] at ht; exact absurd ht (by decide)⟩⟩
      · refine ⟨_, _, hrun, by simp [pushes], fun h9 => absurd hm (Nat.not_lt.mpr h9), ?_⟩
        intro i j h1 h2
        obtain ⟨rfl, rfl⟩ := hcell i j h1 h2
        exact ⟨fun hne => absurd hempty hne, fun _ => ⟨fun hwt => absurd hwt hw,
          fun _ htt => absurd htt ht, fun _ _ => rfl⟩⟩
    · refine ⟨_, _, handle_btn2_of_occupied g ⟨g.moves / 3, hi⟩ ⟨g.moves % 3, hj⟩ hm rfl rfl
        hempty, by simp [pushes], fun _ => rfl, ?_⟩
      intro i j h1 h2
      obtain ⟨rfl, rfl⟩ := hcell i j h1 h2
      exact ⟨fun _ => rfl, fun he => absurd he hempty⟩
  · have h9 : ROWS * COLS ≤ g.moves := Nat.le_of_not_lt hm
    refine ⟨_, _, handle_btn2_of_invalid g h9, by simp [pushes], fun _ => rfl, ?_⟩
    intro i j h1 _
    have h3 : i.val < 3 := i.isLt
    have h1c : i.val = g.moves / 3 := h1
    have h9c : 3 * 3 ≤ g.moves := h9
    omega

/-- C32. A call of `handle_btn2` that takes the ordinary branch (EMPTY cursor cell
written with a player mark, no win, no tie) leaves one EMPTY cell fewer; the
occupied and the invalid branch leave the number of EMPTY cells as it was. Hence,
when cursor and select presses are served from the reset state and none of them has
ended a game (nothing was pushed), the marks written and the EMPTY cells left add
up to 9 and at most 8 marks were written: a run with 9 accepted placements has
pushed a value, that is, it has gone through a win or a tie reset. -/
theorem empty_cells_decrease :
    (∀ (g : Game) (i : Fin ROWS) (j : Fin COLS), g.moves < ROWS * COLS →
      i.val = g.moves / ROWS → j.val = g.moves % COLS → g.board i j = EMPTY →
      g.current_player ≠ EMPTY →
      is_win g.current_player (Board.set g.board i j g.current_player) = false →
      is_tie (Board.set g.board i j g.current_player) = false →
      ∃ g1, handle_btn2 g = some (g1, []) ∧
        Board.count g1.board EMPTY + 1 = Board.count g.board EMPTY) ∧
    (∀ (g : Game) (i : Fin ROWS) (j : Fin COLS), g.moves < ROWS * COLS →
      i.val = g.moves / ROWS → j.val = g.moves % COLS → g.board i j ≠ EMPTY →
      ∃ g1 io, handle_btn2 g = some (g1, io) ∧
        Board.count g1.board EMPTY = Board.count g.board EMPTY) ∧
    (∀ g : Game, ROWS * COLS ≤ g.moves →
      ∃ g1 io, handle_btn2 g = some (g1, io) ∧
        Board.count g1.board EMPTY = Board.count g.board EMPTY) ∧
    (∀ es : List Event, (∀ e ∈ es, e ≠ Event.reset) →
      ∃ g io, run_events es main_init.1.game = some (g, io) ∧
        (pushes io = [] →
          placements es main_init.1.game + Board.count g.board EMPTY = 9 ∧
            placements es main_init.1.game ≤ 8) ∧
        (9 ≤ placements es main_init.1.game → pushes io ≠ [])) := by
  refine ⟨?_, ?_, ?_, ?_⟩
  · intro g i j hm hi hj hempty hp hnowin hnottie
    have hrun := handle_btn2_of_empty g i j hm hi hj hempty
    rw [hnowin, hnottie] at hrun
    exact ⟨_, hrun, Board.count_set_remove g.board i j g.current_player EMPTY hempty hp⟩
  · intro g i j hm hi hj hocc
    exact ⟨_, _, handle_btn2_of_occupied g i j hm hi hj hocc, rfl⟩
  · intro g h9
    exact ⟨_, _, handle_btn2_of_invalid g h9, rfl⟩
  · intro es hne
    obtain ⟨⟨g, io⟩, hr, _, hcount⟩ :=
      placements_run es main_init.1.game (Game.valid_reset_board _) hne
    have h9 : Board.count main_init.1.game.board EMPTY = 9 := Board.count_reset_EMPTY _
    rw [h9] at hcount
    have hbound : pushes io = [] →
        placements es main_init.1.game + Board.count g.board EMPTY = 9 ∧
          placements es main_init.1.game ≤ 8 := by
      intro hp
      obtain ⟨h1, h2⟩ := hcount hp
      refine ⟨h1, ?_⟩
      by_cases hz : 0 < placements es main_init.1.game
      · have := h2 hz
        omega
      · omega
    refine ⟨g, io, hr, hbound, fun hge hp => ?_⟩
    have := (hbound hp).2
    omega

theorem empty_cells_decrease_witness :
    ∃ g1, handle_btn2 state_start = some (g1, []) ∧
      Board.count g1.board EMPTY + 1 = Board.count state_start.board EMPTY :=
  empty_cells_decrease.1 state_start 0 0 (by decide) (by decide) (by decide) (by decide)
    (by decide) (by decide) (by decide)

end TicTacToe
